import Mathlib

/-!
# Ludii game wrapper (games/ludii/ludii_game_wrapper.cc)

A shallow embedding of the JNI binding layer `Ludii::LudiiGameWrapper`:
its two constructors and its two lazily cached shape accessors.

The member functions are straight-line sequences of JNI calls.  Every JNI
function the wrapper calls is modelled as a transition on an explicit
`Runtime` state (Java heap, local references, acquired element buffers,
pending-exception flag, call log).  What the Java side decides (class and
method resolution, the body of the Java constructor, the body of the two
shape methods) is left to an arbitrary, possibly stateful `Engine`.

Conventions.
* References and identifiers are natural numbers, `0` is `NULL`/`nullptr`.
* The reference `r > 0` designates the heap cell `r - 1`.
* Machine integers are `Int`/`Nat` with explicit wrap-around
  (`toInt32`, `toSizeT`).
* The model follows the runs in which every JNI call returns to its caller.
* A native read past the end of an acquired element buffer has undefined
  behaviour.  The source has no exit there, so the model lets the call run on
  to its end and reports it as a fault (`Except.error`), with the runtime the
  call ends in; a read through the null pointer ends the call at once.
-/

namespace Ludii

/-! ## JNI types -/

abbrev jobject := Nat
abbrev jclass := Nat
abbrev jstring := Nat
abbrev jobjectArray := Nat
abbrev jintArray := Nat
abbrev jmethodID := Nat
abbrev jsize := Int

/-- A Java `int`: a 32-bit two's complement integer. -/
abbrev jint := { x : Int // -2147483648 ≤ x ∧ x ≤ 2147483647 }

/-- Conversion of an integer value to a 32-bit signed `int` / `jsize`: the
value modulo 2^32, read as two's complement. -/
def toInt32 (x : Int) : Int :=
  if (x % 4294967296).toNat < 2147483648 then ((x % 4294967296).toNat : Int)
  else ((x % 4294967296).toNat : Int) - 4294967296

/-- Conversion of an `int` to `size_t` (64-bit unsigned). -/
def toSizeT (x : Int) : Nat := (x % 18446744073709551616).toNat

/-- The cast `(int) jints[i]` of the accessors. -/
def intCast (x : jint) : Int := toInt32 x.val

/-- The C string `s.c_str()` as `NewStringUTF` reads it: the characters up to
the first NUL. -/
def c_str (s : String) : String := String.mk (s.data.takeWhile (fun c => c ≠ Char.ofNat 0))

/-! ## The foreign runtime -/

/-- An object of the Java heap. -/
inductive JObj where
  | string (utf : String)
  | objectArray (elementClass : jclass) (elems : List jobject)
  | intArray (elems : List jint)
  | object (clazz : jclass)
  deriving DecidableEq

/-- Everything observable at the language boundary: the JNI calls, with their
arguments and result, and the native reads of an acquired element buffer. -/
inductive Event where
  | FindClass (name : String) (result : jclass)
  | GetMethodID (clazz : jclass) (name : String) (sig : String) (result : jmethodID)
  | NewStringUTF (utf : String) (result : jstring)
  | NewObjectArray (len : jsize) (elementClass : jclass) (initialElement : jobject)
      (result : jobjectArray)
  | SetObjectArrayElement (array : jobjectArray) (index : jsize) (value : jobject)
  | NewObject (clazz : jclass) (methodID : jmethodID) (args : List jobject)
      (heap : List JObj) (result : jobject)
  | CallObjectMethod (obj : jobject) (methodID : jmethodID) (result : jobject)
  | GetIntArrayElements (array : jintArray) (result : Nat)
  | ReleaseIntArrayElements (array : jintArray) (elems : Nat) (mode : Int)
  | DeleteLocalRef (ref : jobject)
  | read (elems : Nat) (index : Nat)
  deriving DecidableEq

/-- What running a piece of Java code does besides returning: the objects it
allocates, whether it throws, and the engine's next private state. -/
structure Outcome (ε : Type) where
  allocated : List JObj
  threw : Bool
  state : ε

/-- The Java side of the boundary.  `findClass` and `getMethodID` return `0`
when resolution fails; `construct` is the body of a Java constructor and
`invoke` the body of a Java method returning a reference. -/
structure Engine (ε : Type) where
  findClass : String → ε → jclass
  getMethodID : jclass → String → String → ε → jmethodID
  construct : jclass → jmethodID → List jobject → List JObj → ε → Outcome ε
  invoke : jobject → jmethodID → List JObj → ε → jobject × Outcome ε

/-- State of the foreign runtime reached through `JNIEnv*`, together with the
counter of native `int[]` blocks handed out by `std::make_unique`. -/
structure Runtime (ε : Type) where
  heap : List JObj
  localRefs : List jobject
  buffers : List (Nat × jintArray × List jint)
  nextBuffer : Nat
  pending : Bool
  engine : ε
  trace : List Event
  nativeBlocks : Nat

/-- Faults of the native side (undefined behaviour of the C++ program). -/
inductive Fault where
  | nullPointer
  | danglingPointer
  | outOfBounds (index : Nat) (length : Nat)
  deriving DecidableEq

/-- The object a reference designates. -/
def deref (heap : List JObj) (r : jobject) : Option JObj :=
  if r = 0 then none else heap[r - 1]?

/-- Handle of the bootstrap class `java.lang.String`, which every runtime has. -/
def javaLangString : jclass := 1

variable {ε : Type}

def FindClass (E : Engine ε) (name : String) (rt : Runtime ε) : jclass × Runtime ε :=
  let c := if name = "java/lang/String" then javaLangString else E.findClass name rt.engine
  (c, { rt with
          pending := rt.pending || (c == 0)
          trace := rt.trace ++ [Event.FindClass name c] })

def GetMethodID (E : Engine ε) (clazz : jclass) (name : String) (sig : String)
    (rt : Runtime ε) : jmethodID × Runtime ε :=
  let m := E.getMethodID clazz name sig rt.engine
  (m, { rt with
          pending := rt.pending || (m == 0)
          trace := rt.trace ++ [Event.GetMethodID clazz name sig m] })

def NewStringUTF (utf : String) (rt : Runtime ε) : jstring × Runtime ε :=
  let r := rt.heap.length + 1
  (r, { rt with
          heap := rt.heap ++ [JObj.string utf]
          localRefs := rt.localRefs ++ [r]
          trace := rt.trace ++ [Event.NewStringUTF utf r] })

def NewObjectArray (len : jsize) (elementClass : jclass) (initialElement : jobject)
    (rt : Runtime ε) : jobjectArray × Runtime ε :=
  if len < 0 ∨ elementClass = 0 then
    (0, { rt with
            pending := true
            trace := rt.trace ++ [Event.NewObjectArray len elementClass initialElement 0] })
  else
    let r := rt.heap.length + 1
    (r, { rt with
            heap := rt.heap ++
              [JObj.objectArray elementClass (List.replicate len.toNat initialElement)]
            localRefs := rt.localRefs ++ [r]
            trace := rt.trace ++ [Event.NewObjectArray len elementClass initialElement r] })

def SetObjectArrayElement (array : jobjectArray) (index : jsize) (value : jobject)
    (rt : Runtime ε) : Runtime ε :=
  match deref rt.heap array with
  | some (JObj.objectArray c elems) =>
    if 0 ≤ index ∧ index.toNat < elems.length then
      { rt with
          heap := rt.heap.set (array - 1) (JObj.objectArray c (elems.set index.toNat value))
          trace := rt.trace ++ [Event.SetObjectArrayElement array index value] }
    else
      { rt with
          pending := true
          trace := rt.trace ++ [Event.SetObjectArrayElement array index value] }
  | _ =>
    { rt with
        pending := true
        trace := rt.trace ++ [Event.SetObjectArrayElement array index value] }

def NewObject (E : Engine ε) (clazz : jclass) (methodID : jmethodID) (args : List jobject)
    (rt : Runtime ε) : jobject × Runtime ε :=
  let out := E.construct clazz methodID args rt.heap rt.engine
  let r := if out.threw then 0 else rt.heap.length + 1
  (r, { rt with
          heap := rt.heap ++ [JObj.object clazz] ++ out.allocated
          localRefs := rt.localRefs ++ (if r = 0 then [] else [r])
          pending := rt.pending || out.threw
          engine := out.state
          trace := rt.trace ++ [Event.NewObject clazz methodID args rt.heap r] })

def CallObjectMethod (E : Engine ε) (obj : jobject) (methodID : jmethodID)
    (rt : Runtime ε) : jobject × Runtime ε :=
  let res := E.invoke obj methodID rt.heap rt.engine
  let r := if res.2.threw then 0 else res.1
  (r, { rt with
          heap := rt.heap ++ res.2.allocated
          localRefs := rt.localRefs ++ (if r = 0 then [] else [r])
          pending := rt.pending || res.2.threw
          engine := res.2.state
          trace := rt.trace ++ [Event.CallObjectMethod obj methodID r] })

/-- The call `GetIntArrayElements(array, nullptr)`: hands out a fresh native
buffer holding the elements; `0` (nullptr) when `array` is no `int[]`. -/
def GetIntArrayElements (array : jintArray) (rt : Runtime ε) : Nat × Runtime ε :=
  match deref rt.heap array with
  | some (JObj.intArray xs) =>
    let p := rt.nextBuffer + 1
    (p, { rt with
            buffers := (p, array, xs) :: rt.buffers
            nextBuffer := p
            trace := rt.trace ++ [Event.GetIntArrayElements array p] })
  | _ =>
    (0, { rt with
            pending := true
            trace := rt.trace ++ [Event.GetIntArrayElements array 0] })

/-- The call `ReleaseIntArrayElements(array, elems, mode)`: mode `0` copies
back and frees the buffer, `1` (JNI_COMMIT) copies back, `2` (JNI_ABORT)
frees. -/
def ReleaseIntArrayElements (array : jintArray) (elems : Nat) (mode : Int)
    (rt : Runtime ε) : Runtime ε :=
  match rt.buffers.find? (fun b => b.1 == elems && b.2.1 == array) with
  | some b =>
    { rt with
        heap := if mode = 0 ∨ mode = 1 then rt.heap.set (array - 1) (JObj.intArray b.2.2)
                else rt.heap
        buffers := if mode = 0 ∨ mode = 2 then
                     rt.buffers.eraseP (fun b => b.1 == elems && b.2.1 == array)
                   else rt.buffers
        trace := rt.trace ++ [Event.ReleaseIntArrayElements array elems mode] }
  | none =>
    { rt with trace := rt.trace ++ [Event.ReleaseIntArrayElements array elems mode] }

/-- The call `DeleteLocalRef(ref)`.  The wrapper never makes it. -/
def DeleteLocalRef (ref : jobject) (rt : Runtime ε) : Runtime ε :=
  { rt with
      localRefs := rt.localRefs.erase ref
      trace := rt.trace ++ [Event.DeleteLocalRef ref] }

/-- The native read `jints[i]` through a `jint*`. -/
def readInt (jints : Nat) (i : Nat) (rt : Runtime ε) :
    Except (Fault × Runtime ε) (jint × Runtime ε) :=
  let rt1 := { rt with trace := rt.trace ++ [Event.read jints i] }
  if jints = 0 then Except.error (Fault.nullPointer, rt1)
  else
    match rt.buffers.find? (fun b => b.1 == jints) with
    | none => Except.error (Fault.danglingPointer, rt1)
    | some b =>
      match b.2.2[i]? with
      | some x => Except.ok (x, rt1)
      | none => Except.error (Fault.outOfBounds i b.2.2.length, rt1)

/-! ## The wrapper -/

/-- A native `int[]` block owned through a `std::unique_ptr<int[]>`. -/
structure IntBlock where
  addr : Nat
  cells : List Int
  deriving DecidableEq

/-- The call `std::make_unique<int[]>(n)`: a fresh zero-initialised block. -/
def make_unique (n : Nat) (rt : Runtime ε) : IntBlock × Runtime ε :=
  ({ addr := rt.nativeBlocks + 1, cells := List.replicate n 0 },
   { rt with nativeBlocks := rt.nativeBlocks + 1 })

/-- Modelled from the spec: the class declaration (ludii_game_wrapper.h) is not
among the sources.  The fields are those the member functions use; a
`std::unique_ptr<int[]>` is `none` when it holds `nullptr`, and both caches
start unpopulated. -/
structure LudiiGameWrapper where
  jenv : Nat
  ludiiGameWrapperClass : jclass
  ludiiGameWrapperJavaObject : jobject
  stateTensorsShapeMethodID : jmethodID
  moveTensorsShapeMethodID : jmethodID
  stateTensorsShape : Option IntBlock
  moveTensorsShape : Option IntBlock
  deriving DecidableEq

/-- Constructor `LudiiGameWrapper(JNIEnv* jenv, const std::string lud_path)`. -/
def LudiiGameWrapper.Construct (E : Engine ε) (jenv : Nat) (lud_path : String)
    (rt : Runtime ε) : LudiiGameWrapper × Runtime ε :=
  let c := FindClass E "utils/LudiiGameWrapper" rt
  let ctor := GetMethodID E c.1 "<init>" "(Ljava/lang/String;)V" c.2
  let java_lud_path := NewStringUTF (c_str lud_path) ctor.2
  let obj := NewObject E c.1 ctor.1 [java_lud_path.1] java_lud_path.2
  let sid := GetMethodID E c.1 "stateTensorsShape" "()[I" obj.2
  let mid := GetMethodID E c.1 "moveTensorsShape" "()[I" sid.2
  ({ jenv := jenv
     ludiiGameWrapperClass := c.1
     ludiiGameWrapperJavaObject := obj.1
     stateTensorsShapeMethodID := sid.1
     moveTensorsShapeMethodID := mid.1
     stateTensorsShape := none
     moveTensorsShape := none }, mid.2)

/-- The loop `for (int i = 0; i < game_options.size(); ++i)` of the second
constructor, from index `i` on.  The comparison converts `i` to `size_t`,
`++i` wraps at 32 bits.  The first argument bounds the number of iterations;
the constructor passes the number of options, which is never the reason the
loop stops (`optionsLoop_fuel`). -/
def optionsLoop (java_game_options : jobjectArray) (game_options : List String) :
    Nat → Int → Runtime ε → Runtime ε
  | 0, _, rt => rt
  | fuel + 1, i, rt =>
    if h : toSizeT i < game_options.length then
      let s := NewStringUTF (c_str game_options[toSizeT i]) rt
      let rt2 := SetObjectArrayElement java_game_options i s.1 s.2
      optionsLoop java_game_options game_options fuel (toInt32 (i + 1)) rt2
    else rt

/-- Constructor `LudiiGameWrapper(JNIEnv* jenv, const std::string lud_path,
const std::vector<std::string> game_options)`. -/
def LudiiGameWrapper.ConstructOptions (E : Engine ε) (jenv : Nat) (lud_path : String)
    (game_options : List String) (rt : Runtime ε) : LudiiGameWrapper × Runtime ε :=
  let c := FindClass E "utils/LudiiGameWrapper" rt
  let ctor := GetMethodID E c.1 "<init>" "(Ljava/lang/String;[Ljava/lang/String;)V" c.2
  let java_lud_path := NewStringUTF (c_str lud_path) ctor.2
  let sc := FindClass E "java/lang/String" java_lud_path.2
  let java_game_options := NewObjectArray (toInt32 game_options.length) sc.1 0 sc.2
  let rt1 := optionsLoop java_game_options.1 game_options game_options.length 0
    java_game_options.2
  let obj := NewObject E c.1 ctor.1 [java_lud_path.1, java_game_options.1] rt1
  let sid := GetMethodID E c.1 "stateTensorsShape" "()[I" obj.2
  let mid := GetMethodID E c.1 "moveTensorsShape" "()[I" sid.2
  ({ jenv := jenv
     ludiiGameWrapperClass := c.1
     ludiiGameWrapperJavaObject := obj.1
     stateTensorsShapeMethodID := sid.1
     moveTensorsShapeMethodID := mid.1
     stateTensorsShape := none
     moveTensorsShape := none }, mid.2)

/-- The loop `for (size_t i = 0; i < 3; ++i) shape.get()[i] = (int) jints[i];`
of both accessors, from index `i` on.  The loop has no exit: a read past the
end of the acquired buffer finds an indeterminate value and the loop goes on,
`first` remembering the first such read (the cell is then left as it is, and
the block is no part of the outcome of the call).  A read through a null
pointer traps and ends the call. -/
def copyShape (jints : Nat) : Nat → Nat → IntBlock → Option Fault → Runtime ε →
    Except (Fault × Runtime ε) (IntBlock × Option Fault × Runtime ε)
  | 0, _, blk, first, rt => Except.ok (blk, first, rt)
  | fuel + 1, i, blk, first, rt =>
    if i < 3 then
      match readInt jints i rt with
      | Except.ok (x, rt1) =>
        copyShape jints fuel (i + 1)
          { addr := blk.addr, cells := blk.cells.set i (intCast x) } first rt1
      | Except.error (Fault.outOfBounds index length, rt1) =>
        copyShape jints fuel (i + 1) blk
          (if first = none then some (Fault.outOfBounds index length) else first) rt1
      | Except.error e => Except.error e
    else Except.ok (blk, first, rt)

/-- Member function `int* LudiiGameWrapper::StateTensorsShape()`.  The result
is the pointer `stateTensorsShape.get()`.  Nothing stands between the
acquisition of the elements and their release, so the release is made also
after a read past the end of the buffer; such a call has undefined behaviour
and is reported as a fault, with the runtime in which it ends. -/
def LudiiGameWrapper.StateTensorsShape (E : Engine ε) (self : LudiiGameWrapper)
    (rt : Runtime ε) :
    Except (Fault × Runtime ε) (Option IntBlock × LudiiGameWrapper × Runtime ε) :=
  if self.stateTensorsShape = none then
    let jint_array :=
      CallObjectMethod E self.ludiiGameWrapperJavaObject self.stateTensorsShapeMethodID rt
    let jints := GetIntArrayElements jint_array.1 jint_array.2
    let blk := make_unique 3 jints.2
    match copyShape jints.1 3 0 blk.1 none blk.2 with
    | Except.error e => Except.error e
    | Except.ok (blk1, first, rt1) =>
      let rt2 := ReleaseIntArrayElements jint_array.1 jints.1 0 rt1
      match first with
      | some f => Except.error (f, rt2)
      | none => Except.ok (some blk1, { self with stateTensorsShape := some blk1 }, rt2)
  else Except.ok (self.stateTensorsShape, self, rt)

/-- Member function `int* LudiiGameWrapper::MoveTensorsShape()`.  The result is
the pointer `moveTensorsShape.get()`.  Faults as in `StateTensorsShape`. -/
def LudiiGameWrapper.MoveTensorsShape (E : Engine ε) (self : LudiiGameWrapper)
    (rt : Runtime ε) :
    Except (Fault × Runtime ε) (Option IntBlock × LudiiGameWrapper × Runtime ε) :=
  if self.moveTensorsShape = none then
    let jint_array :=
      CallObjectMethod E self.ludiiGameWrapperJavaObject self.moveTensorsShapeMethodID rt
    let jints := GetIntArrayElements jint_array.1 jint_array.2
    let blk := make_unique 3 jints.2
    match copyShape jints.1 3 0 blk.1 none blk.2 with
    | Except.error e => Except.error e
    | Except.ok (blk1, first, rt1) =>
      let rt2 := ReleaseIntArrayElements jint_array.1 jints.1 0 rt1
      match first with
      | some f => Except.error (f, rt2)
      | none => Except.ok (some blk1, { self with moveTensorsShape := some blk1 }, rt2)
  else Except.ok (self.moveTensorsShape, self, rt)

/-! ## Vocabulary of the specification -/

/-- The part of an accessor that crosses the boundary, common to both:
invoke the shape method, acquire the elements, copy three, release. -/
def fetchShape (E : Engine ε) (obj : jobject) (methodID : jmethodID) (rt : Runtime ε) :
    Except (Fault × Runtime ε) (IntBlock × Runtime ε) :=
  let jint_array := CallObjectMethod E obj methodID rt
  let jints := GetIntArrayElements jint_array.1 jint_array.2
  let blk := make_unique 3 jints.2
  match copyShape jints.1 3 0 blk.1 none blk.2 with
  | Except.error e => Except.error e
  | Except.ok (blk1, first, rt1) =>
    match first with
    | some f => Except.error (f, ReleaseIntArrayElements jint_array.1 jints.1 0 rt1)
    | none => Except.ok (blk1, ReleaseIntArrayElements jint_array.1 jints.1 0 rt1)

/-- Runtime after an acquire, three reads and a release, `c` being the result
of the method invocation. -/
def fetchedRuntime (c : jobject × Runtime ε) : Runtime ε :=
  { c.2 with
      nextBuffer := c.2.nextBuffer + 1
      nativeBlocks := c.2.nativeBlocks + 1
      trace := c.2.trace ++
        [Event.GetIntArrayElements c.1 (c.2.nextBuffer + 1),
         Event.read (c.2.nextBuffer + 1) 0, Event.read (c.2.nextBuffer + 1) 1,
         Event.read (c.2.nextBuffer + 1) 2,
         Event.ReleaseIntArrayElements c.1 (c.2.nextBuffer + 1) 0] }

/-- Class, constructor or method lookups. -/
def Event.isLookup : Event → Bool
  | Event.FindClass _ _ => true
  | Event.GetMethodID _ _ _ _ => true
  | _ => false

/-- Foreign object constructions. -/
def Event.isNewObject : Event → Bool
  | Event.NewObject _ _ _ _ _ => true
  | _ => false

/-- Foreign method invocations. -/
def Event.isInvoke : Event → Bool
  | Event.CallObjectMethod _ _ _ => true
  | _ => false

/-- Calls that give something back to the foreign runtime. -/
def Event.isRelease : Event → Bool
  | Event.ReleaseIntArrayElements _ _ _ => true
  | Event.DeleteLocalRef _ => true
  | _ => false

/-- Native reads of an element buffer. -/
def Event.isRead : Event → Bool
  | Event.read _ _ => true
  | _ => false

/-- The events of the option marshalling loop. -/
def Event.isMarshal : Event → Bool
  | Event.NewStringUTF _ _ => true
  | Event.SetObjectArrayElement _ _ _ => true
  | _ => false

/-- The events of acquiring, reading and releasing an element buffer. -/
def Event.isBufferAccess : Event → Bool
  | Event.GetIntArrayElements _ _ => true
  | Event.read _ _ => true
  | Event.ReleaseIntArrayElements _ _ _ => true
  | _ => false

/-- The events logged between two runtime states. -/
def newEvents (before after : Runtime ε) : List Event :=
  after.trace.drop before.trace.length

/-- The runtime an accessor call ends in, whether it returns or faults. -/
def finalRuntime :
    Except (Fault × Runtime ε) (Option IntBlock × LudiiGameWrapper × Runtime ε) → Runtime ε
  | Except.ok r => r.2.2
  | Except.error e => e.2

/-- The runtime a fetch ends in, whether it completes or faults. -/
def fetchFinal : Except (Fault × Runtime ε) (IntBlock × Runtime ε) → Runtime ε
  | Except.ok r => r.2
  | Except.error e => e.2

/-- The integers a caller sees through the pointer an accessor returned. -/
def returnedShape :
    Except (Fault × Runtime ε) (Option IntBlock × LudiiGameWrapper × Runtime ε) →
      Option (List Int)
  | Except.ok (some blk, _, _) => some blk.cells
  | _ => none

/-- The two accessors. -/
inductive Accessor where
  | state
  | move
  deriving DecidableEq

/-- One accessor call. -/
def callAccessor (E : Engine ε) : Accessor → LudiiGameWrapper → Runtime ε →
    Except (Fault × Runtime ε) (Option IntBlock × LudiiGameWrapper × Runtime ε)
  | Accessor.state => LudiiGameWrapper.StateTensorsShape E
  | Accessor.move => LudiiGameWrapper.MoveTensorsShape E

/-- A client making a sequence of accessor calls on one wrapper; the results are
collected in call order. -/
def runCalls (E : Engine ε) : List Accessor → LudiiGameWrapper → Runtime ε →
    Except (Fault × Runtime ε) (List (Option IntBlock) × LudiiGameWrapper × Runtime ε)
  | [], w, rt => Except.ok ([], w, rt)
  | c :: cs, w, rt =>
    match callAccessor E c w rt with
    | Except.error e => Except.error e
    | Except.ok (r, w1, rt1) =>
      match runCalls E cs w1 rt1 with
      | Except.error e => Except.error e
      | Except.ok (rs, w2, rt2) => Except.ok (r :: rs, w2, rt2)

/-- The second constructor up to the creation of the options array, before the
loop: class handle, constructor identifier, path string, options array, and
the runtime reached. -/
def optionsPrefix (E : Engine ε) (lud_path : String) (game_options : List String)
    (rt : Runtime ε) : jclass × jmethodID × jstring × jobjectArray × Runtime ε :=
  let c := FindClass E "utils/LudiiGameWrapper" rt
  let ctor := GetMethodID E c.1 "<init>" "(Ljava/lang/String;[Ljava/lang/String;)V" c.2
  let java_lud_path := NewStringUTF (c_str lud_path) ctor.2
  let sc := FindClass E "java/lang/String" java_lud_path.2
  let java_game_options := NewObjectArray (toInt32 game_options.length) sc.1 0 sc.2
  (c.1, ctor.1, java_lud_path.1, java_game_options.1, java_game_options.2)

/-- The runtime in which the second constructor calls `NewObject`: after the
option loop. -/
def optionsMarshalled (E : Engine ε) (lud_path : String) (game_options : List String)
    (rt : Runtime ε) : Runtime ε :=
  optionsLoop (optionsPrefix E lud_path game_options rt).2.2.2.1 game_options
    game_options.length 0 (optionsPrefix E lud_path game_options rt).2.2.2.2

/-- The end of both constructors: the foreign construction and the two shape
method lookups.  Returns the counterpart reference, the two identifiers and
the runtime reached. -/
def constructTail (E : Engine ε) (clazz : jclass) (ctor : jmethodID) (args : List jobject)
    (rt : Runtime ε) : jobject × jmethodID × jmethodID × Runtime ε :=
  let obj := NewObject E clazz ctor args rt
  let sid := GetMethodID E clazz "stateTensorsShape" "()[I" obj.2
  let mid := GetMethodID E clazz "moveTensorsShape" "()[I" sid.2
  (obj.1, sid.1, mid.1, mid.2)

/-- The first constructor before it calls `NewObject`: class handle,
constructor identifier, path string, and the runtime reached. -/
def pathPrefix (E : Engine ε) (lud_path : String) (rt : Runtime ε) :
    jclass × jmethodID × jstring × Runtime ε :=
  let c := FindClass E "utils/LudiiGameWrapper" rt
  let ctor := GetMethodID E c.1 "<init>" "(Ljava/lang/String;)V" c.2
  let java_lud_path := NewStringUTF (c_str lud_path) ctor.2
  (c.1, ctor.1, java_lud_path.1, java_lud_path.2)

/-- A client constructing two wrappers, one after the other, from the same
path: both wrappers and the runtime reached. -/
def constructTwice (E : Engine ε) (jenv : Nat) (lud_path : String) (rt : Runtime ε) :
    LudiiGameWrapper × LudiiGameWrapper × Runtime ε :=
  ((LudiiGameWrapper.Construct E jenv lud_path rt).1,
   (LudiiGameWrapper.Construct E jenv lud_path
     (LudiiGameWrapper.Construct E jenv lud_path rt).2).1,
   (LudiiGameWrapper.Construct E jenv lud_path
     (LudiiGameWrapper.Construct E jenv lud_path rt).2).2)

/-- A client constructing two wrappers, one after the other, from the same path
and options. -/
def constructOptionsTwice (E : Engine ε) (jenv : Nat) (lud_path : String)
    (game_options : List String) (rt : Runtime ε) :
    LudiiGameWrapper × LudiiGameWrapper × Runtime ε :=
  ((LudiiGameWrapper.ConstructOptions E jenv lud_path game_options rt).1,
   (LudiiGameWrapper.ConstructOptions E jenv lud_path game_options
     (LudiiGameWrapper.ConstructOptions E jenv lud_path game_options rt).2).1,
   (LudiiGameWrapper.ConstructOptions E jenv lud_path game_options
     (LudiiGameWrapper.ConstructOptions E jenv lud_path game_options rt).2).2)

/-! ## Example engines -/

/-- A runtime in which nothing has happened yet. -/
def Runtime.init (e : ε) : Runtime ε :=
  { heap := [], localRefs := [], buffers := [], nextBuffer := 0, pending := false,
    engine := e, trace := [], nativeBlocks := 0 }

/-- A Java `int` literal. -/
def jintOf (n : Nat) (h : n ≤ 2147483647) : jint := ⟨(n : Int), by omega⟩

/-- An engine stub: the wrapper class resolves to handle 7, its members to the
identifiers 1 to 4, construction succeeds, the state shape is `[3, 8, 8]` and
the move shape `[4, 1, 1]`. -/
def stubEngine : Engine Unit where
  findClass name _ := if name = "utils/LudiiGameWrapper" then 7 else 0
  getMethodID clazz name sig _ :=
    if clazz = 7 then
      if name = "<init>" ∧ sig = "(Ljava/lang/String;)V" then 1
      else if name = "<init>" ∧ sig = "(Ljava/lang/String;[Ljava/lang/String;)V" then 2
      else if name = "stateTensorsShape" ∧ sig = "()[I" then 3
      else if name = "moveTensorsShape" ∧ sig = "()[I" then 4
      else 0
    else 0
  construct _ _ _ _ _ := { allocated := [], threw := false, state := () }
  invoke _ methodID heap _ :=
    if methodID = 3 then
      (heap.length + 1,
        { allocated := [JObj.intArray [jintOf 3 (by decide), jintOf 8 (by decide),
            jintOf 8 (by decide)]],
          threw := false, state := () })
    else if methodID = 4 then
      (heap.length + 1,
        { allocated := [JObj.intArray [jintOf 4 (by decide), jintOf 1 (by decide),
            jintOf 1 (by decide)]],
          threw := false, state := () })
    else (0, { allocated := [], threw := true, state := () })

/-- An option with an embedded NUL character: `a`, NUL, `b`. -/
def nulOption : String := String.mk ['a', Char.ofNat 0, 'b']

/-- An engine whose shape methods answer differently on every invocation: the
n-th invocation returns `[n, n, n, n]` (four elements). -/
def driftingEngine : Engine Nat where
  findClass name _ := if name = "utils/LudiiGameWrapper" then 7 else 0
  getMethodID _ name _ _ :=
    if name = "<init>" then 1
    else if name = "stateTensorsShape" then 3
    else if name = "moveTensorsShape" then 4
    else 0
  construct _ _ _ _ n := { allocated := [], threw := false, state := n }
  invoke _ _ heap n :=
    (heap.length + 1,
      { allocated := [JObj.intArray (List.replicate 4
          (if h : n ≤ 2147483647 then jintOf n h else jintOf 0 (by decide)))],
        threw := false, state := n + 1 })

/-- An engine whose shape methods return an array of two elements only. -/
def shortEngine : Engine Unit where
  findClass name _ := if name = "utils/LudiiGameWrapper" then 7 else 0
  getMethodID _ name _ _ :=
    if name = "<init>" then 1
    else if name = "stateTensorsShape" then 3
    else if name = "moveTensorsShape" then 4
    else 0
  construct _ _ _ _ _ := { allocated := [], threw := false, state := () }
  invoke _ _ heap _ :=
    (heap.length + 1,
      { allocated := [JObj.intArray [jintOf 3 (by decide), jintOf 8 (by decide)]],
        threw := false, state := () })

/-- An engine in which the class and the constructor resolve and construction
succeeds, but the method `moveTensorsShape` does not exist. -/
def noMoveMethodEngine : Engine Unit where
  findClass name _ := if name = "utils/LudiiGameWrapper" then 7 else 0
  getMethodID _ name _ _ :=
    if name = "<init>" then 1
    else if name = "stateTensorsShape" then 3
    else 0
  construct _ _ _ _ _ := { allocated := [], threw := false, state := () }
  invoke _ _ _ _ := (0, { allocated := [], threw := true, state := () })

/-- An engine whose Java constructor always throws. -/
def throwingEngine : Engine Unit where
  findClass name _ := if name = "utils/LudiiGameWrapper" then 7 else 0
  getMethodID _ name _ _ :=
    if name = "<init>" then 1
    else if name = "stateTensorsShape" then 3
    else if name = "moveTensorsShape" then 4
    else 0
  construct _ _ _ _ _ := { allocated := [], threw := true, state := () }
  invoke _ _ _ _ := (0, { allocated := [], threw := true, state := () })

/-! ## Arithmetic and list facts -/

theorem toInt32_val (v : Int) (h1 : -2147483648 ≤ v) (h2 : v ≤ 2147483647) :
    toInt32 v = v := by
  unfold toInt32
  split <;> omega

theorem toInt32_of_lt (n : Nat) (h : n < 2147483648) : toInt32 (n : Int) = (n : Int) :=
  toInt32_val _ (by omega) (by omega)

theorem intCast_val (x : jint) : intCast x = x.val :=
  toInt32_val x.val x.property.1 x.property.2

theorem list_set_self {α : Type} (l : List α) (i : Nat) (a : α) (h : l[i]? = some a) :
    l.set i a = l := by
  apply List.ext_getElem?
  intro j
  by_cases hij : i = j
  · subst hij
    have hlt : i < l.length := by
      rw [List.getElem?_eq_some_iff] at h
      exact h.1
    rw [List.getElem?_set_self hlt]
    exact h.symm
  · rw [List.getElem?_set_ne hij]

theorem set_deref_self (heap : List JObj) (r : jobject) (o : JObj)
    (h : deref heap r = some o) : heap.set (r - 1) o = heap := by
  unfold deref at h
  split at h
  · simp at h
  · exact list_set_self _ _ _ h

/-! ## The accessors -/

theorem StateTensorsShape_eq (E : Engine ε) (self : LudiiGameWrapper) (rt : Runtime ε) :
    LudiiGameWrapper.StateTensorsShape E self rt =
      if self.stateTensorsShape = none then
        match fetchShape E self.ludiiGameWrapperJavaObject self.stateTensorsShapeMethodID rt with
        | Except.error e => Except.error e
        | Except.ok (blk1, rt2) =>
          Except.ok (some blk1, { self with stateTensorsShape := some blk1 }, rt2)
      else Except.ok (self.stateTensorsShape, self, rt) := by
  unfold LudiiGameWrapper.StateTensorsShape fetchShape
  split
  · simp only []
    generalize copyShape _ _ _ _ _ _ = r
    rcases r with e | ⟨blk1, first, rt1⟩
    · rfl
    · cases first <;> rfl
  · rfl

theorem MoveTensorsShape_eq (E : Engine ε) (self : LudiiGameWrapper) (rt : Runtime ε) :
    LudiiGameWrapper.MoveTensorsShape E self rt =
      if self.moveTensorsShape = none then
        match fetchShape E self.ludiiGameWrapperJavaObject self.moveTensorsShapeMethodID rt with
        | Except.error e => Except.error e
        | Except.ok (blk1, rt2) =>
          Except.ok (some blk1, { self with moveTensorsShape := some blk1 }, rt2)
      else Except.ok (self.moveTensorsShape, self, rt) := by
  unfold LudiiGameWrapper.MoveTensorsShape fetchShape
  split
  · simp only []
    generalize copyShape _ _ _ _ _ _ = r
    rcases r with e | ⟨blk1, first, rt1⟩
    · rfl
    · cases first <;> rfl
  · rfl

theorem CallObjectMethod_trace (E : Engine ε) (obj : jobject) (mid : jmethodID)
    (rt : Runtime ε) :
    (CallObjectMethod E obj mid rt).2.trace =
      rt.trace ++ [Event.CallObjectMethod obj mid (CallObjectMethod E obj mid rt).1] := rfl

theorem fetchShape_long (E : Engine ε) (obj : jobject) (mid : jmethodID) (rt : Runtime ε)
    (a0 a1 a2 : jint) (rest : List jint)
    (h : deref (CallObjectMethod E obj mid rt).2.heap (CallObjectMethod E obj mid rt).1
          = some (JObj.intArray (a0 :: a1 :: a2 :: rest))) :
    fetchShape E obj mid rt =
      Except.ok (⟨(CallObjectMethod E obj mid rt).2.nativeBlocks + 1, [a0.val, a1.val, a2.val]⟩,
        fetchedRuntime (CallObjectMethod E obj mid rt)) := by
  simp [fetchShape, GetIntArrayElements, h, make_unique, copyShape, readInt, intCast_val,
    ReleaseIntArrayElements, fetchedRuntime, set_deref_self _ _ _ h]

theorem fetchShape_short (E : Engine ε) (obj : jobject) (mid : jmethodID) (rt : Runtime ε)
    (a : List jint) (hlen : a.length < 3)
    (h : deref (CallObjectMethod E obj mid rt).2.heap (CallObjectMethod E obj mid rt).1
          = some (JObj.intArray a)) :
    fetchShape E obj mid rt =
      Except.error (Fault.outOfBounds a.length a.length,
        fetchedRuntime (CallObjectMethod E obj mid rt)) := by
  match a, hlen with
  | [], _ =>
    simp [fetchShape, GetIntArrayElements, h, make_unique, copyShape, readInt,
      ReleaseIntArrayElements, fetchedRuntime, set_deref_self _ _ _ h]
  | [a0], _ =>
    simp [fetchShape, GetIntArrayElements, h, make_unique, copyShape, readInt,
      ReleaseIntArrayElements, fetchedRuntime, set_deref_self _ _ _ h]
  | [a0, a1], _ =>
    simp [fetchShape, GetIntArrayElements, h, make_unique, copyShape, readInt,
      ReleaseIntArrayElements, fetchedRuntime, set_deref_self _ _ _ h]
  | _ :: _ :: _ :: _, hl => simp at hl; omega

theorem fetchShape_notArray (E : Engine ε) (obj : jobject) (mid : jmethodID) (rt : Runtime ε)
    (h : ∀ a, deref (CallObjectMethod E obj mid rt).2.heap (CallObjectMethod E obj mid rt).1
          ≠ some (JObj.intArray a)) :
    ∃ rt', fetchShape E obj mid rt = Except.error (Fault.nullPointer, rt') ∧
      rt'.buffers = (CallObjectMethod E obj mid rt).2.buffers ∧
      rt'.trace = (CallObjectMethod E obj mid rt).2.trace ++
        [Event.GetIntArrayElements (CallObjectMethod E obj mid rt).1 0, Event.read 0 0] := by
  have hg : GetIntArrayElements (CallObjectMethod E obj mid rt).1 (CallObjectMethod E obj mid rt).2
      = (0, { (CallObjectMethod E obj mid rt).2 with
                pending := true
                trace := (CallObjectMethod E obj mid rt).2.trace ++
                  [Event.GetIntArrayElements (CallObjectMethod E obj mid rt).1 0] }) := by
    unfold GetIntArrayElements
    split
    · rename_i xs hx
      exact absurd hx (h xs)
    · rfl
  simp [fetchShape, hg, make_unique, copyShape, readInt]

/-- The events a completed fetch adds after the method invocation. -/
theorem fetchedRuntime_trace (E : Engine ε) (obj : jobject) (mid : jmethodID)
    (rt : Runtime ε) :
    (fetchedRuntime (CallObjectMethod E obj mid rt)).trace =
      rt.trace ++ [Event.CallObjectMethod obj mid (CallObjectMethod E obj mid rt).1,
        Event.GetIntArrayElements (CallObjectMethod E obj mid rt).1
          ((CallObjectMethod E obj mid rt).2.nextBuffer + 1),
        Event.read ((CallObjectMethod E obj mid rt).2.nextBuffer + 1) 0,
        Event.read ((CallObjectMethod E obj mid rt).2.nextBuffer + 1) 1,
        Event.read ((CallObjectMethod E obj mid rt).2.nextBuffer + 1) 2,
        Event.ReleaseIntArrayElements (CallObjectMethod E obj mid rt).1
          ((CallObjectMethod E obj mid rt).2.nextBuffer + 1) 0] := by
  simp only [fetchedRuntime]
  rw [CallObjectMethod_trace]
  simp

/-- A fetch whose invocation yields an `int[]`, of whatever length, ends in the
runtime of a completed fetch: the release is made in every case. -/
theorem fetchShape_final (E : Engine ε) (obj : jobject) (mid : jmethodID) (rt : Runtime ε)
    (a : List jint)
    (h : deref (CallObjectMethod E obj mid rt).2.heap (CallObjectMethod E obj mid rt).1
          = some (JObj.intArray a)) :
    fetchFinal (fetchShape E obj mid rt) = fetchedRuntime (CallObjectMethod E obj mid rt) := by
  by_cases hlen : a.length < 3
  · rw [fetchShape_short E obj mid rt a hlen h]
    rfl
  · match a, hlen with
    | [], hl => simp at hl
    | [_], hl => simp at hl
    | [_, _], hl => simp at hl
    | a0 :: a1 :: a2 :: rest, _ =>
      rw [fetchShape_long E obj mid rt a0 a1 a2 rest h]
      rfl

/-- Every fetch logs its method invocation first, and after it only buffer
accesses. -/
theorem fetchShape_trace (E : Engine ε) (obj : jobject) (mid : jmethodID) (rt : Runtime ε) :
    ∃ d, (fetchFinal (fetchShape E obj mid rt)).trace =
        rt.trace ++ Event.CallObjectMethod obj mid (CallObjectMethod E obj mid rt).1 :: d ∧
      ∀ e ∈ d, e.isBufferAccess = true := by
  by_cases hex : ∃ a, deref (CallObjectMethod E obj mid rt).2.heap
      (CallObjectMethod E obj mid rt).1 = some (JObj.intArray a)
  · obtain ⟨a, ha⟩ := hex
    refine ⟨[Event.GetIntArrayElements (CallObjectMethod E obj mid rt).1
        ((CallObjectMethod E obj mid rt).2.nextBuffer + 1),
      Event.read ((CallObjectMethod E obj mid rt).2.nextBuffer + 1) 0,
      Event.read ((CallObjectMethod E obj mid rt).2.nextBuffer + 1) 1,
      Event.read ((CallObjectMethod E obj mid rt).2.nextBuffer + 1) 2,
      Event.ReleaseIntArrayElements (CallObjectMethod E obj mid rt).1
        ((CallObjectMethod E obj mid rt).2.nextBuffer + 1) 0], ?_, ?_⟩
    · rw [fetchShape_final E obj mid rt a ha, fetchedRuntime_trace]
    · intro e he
      simp only [List.mem_cons, List.mem_singleton, List.not_mem_nil, or_false] at he
      rcases he with rfl | rfl | rfl | rfl | rfl <;> rfl
  · obtain ⟨rt', h1, _, h2⟩ := fetchShape_notArray E obj mid rt (fun a ha => hex ⟨a, ha⟩)
    refine ⟨[Event.GetIntArrayElements (CallObjectMethod E obj mid rt).1 0, Event.read 0 0],
      ?_, ?_⟩
    · rw [h1]
      simp only [fetchFinal]
      rw [h2, CallObjectMethod_trace]
      simp
    · intro e he
      simp only [List.mem_cons, List.mem_singleton, List.not_mem_nil, or_false] at he
      rcases he with rfl | rfl <;> rfl

theorem fetchShape_ok (E : Engine ε) (obj : jobject) (mid : jmethodID) (rt : Runtime ε)
    (blk : IntBlock) (rt' : Runtime ε) (h : fetchShape E obj mid rt = Except.ok (blk, rt')) :
    ∃ a0 a1 a2 rest,
      deref (CallObjectMethod E obj mid rt).2.heap (CallObjectMethod E obj mid rt).1
        = some (JObj.intArray (a0 :: a1 :: a2 :: rest)) ∧
      blk = ⟨(CallObjectMethod E obj mid rt).2.nativeBlocks + 1, [a0.val, a1.val, a2.val]⟩ ∧
      rt' = fetchedRuntime (CallObjectMethod E obj mid rt) := by
  by_cases hex : ∃ a, deref (CallObjectMethod E obj mid rt).2.heap
      (CallObjectMethod E obj mid rt).1 = some (JObj.intArray a)
  · obtain ⟨a, ha⟩ := hex
    by_cases hlen : a.length < 3
    · rw [fetchShape_short E obj mid rt a hlen ha] at h
      cases h
    · match a, hlen with
      | [], hl => simp at hl
      | [_], hl => simp at hl
      | [_, _], hl => simp at hl
      | a0 :: a1 :: a2 :: rest, _ =>
        rw [fetchShape_long E obj mid rt a0 a1 a2 rest ha] at h
        injection h with h
        injection h with hb hr
        exact ⟨a0, a1, a2, rest, ha, hb.symm, hr.symm⟩
  · obtain ⟨rt1, h1, _⟩ := fetchShape_notArray E obj mid rt (fun a ha => hex ⟨a, ha⟩)
    rw [h1] at h
    cases h

theorem newEvents_append (rt rt' : Runtime ε) (d : List Event)
    (h : rt'.trace = rt.trace ++ d) : newEvents rt rt' = d := by
  unfold newEvents
  rw [h]
  exact List.drop_left _ _

theorem newEvents_self (rt : Runtime ε) : newEvents rt rt = [] := by
  simp [newEvents]

theorem StateTensorsShape_populated (E : Engine ε) (self : LudiiGameWrapper) (rt : Runtime ε)
    (b : IntBlock) (h : self.stateTensorsShape = some b) :
    LudiiGameWrapper.StateTensorsShape E self rt = Except.ok (some b, self, rt) := by
  rw [StateTensorsShape_eq]
  simp [h]

theorem MoveTensorsShape_populated (E : Engine ε) (self : LudiiGameWrapper) (rt : Runtime ε)
    (b : IntBlock) (h : self.moveTensorsShape = some b) :
    LudiiGameWrapper.MoveTensorsShape E self rt = Except.ok (some b, self, rt) := by
  rw [MoveTensorsShape_eq]
  simp [h]

/-- What a returning call of `StateTensorsShape` did: either the cache was
populated and nothing happened, or a complete fetch took place. -/
theorem StateTensorsShape_ok (E : Engine ε) (self : LudiiGameWrapper) (rt : Runtime ε)
    (r : Option IntBlock) (w : LudiiGameWrapper) (rt' : Runtime ε)
    (h : LudiiGameWrapper.StateTensorsShape E self rt = Except.ok (r, w, rt')) :
    (∃ b, self.stateTensorsShape = some b ∧ r = some b ∧ w = self ∧ rt' = rt) ∨
    (self.stateTensorsShape = none ∧ ∃ blk,
      fetchShape E self.ludiiGameWrapperJavaObject self.stateTensorsShapeMethodID rt
        = Except.ok (blk, rt') ∧
      r = some blk ∧ w = { self with stateTensorsShape := some blk }) := by
  rw [StateTensorsShape_eq] at h
  split at h
  · rename_i hn
    right
    refine ⟨hn, ?_⟩
    split at h
    · cases h
    · rename_i blk1 rt2 hf
      injection h with h
      injection h with h1 h2
      injection h2 with h2 h3
      subst h1 h2 h3
      exact ⟨blk1, hf, rfl, rfl⟩
  · rename_i hn
    left
    injection h with h
    injection h with h1 h2
    injection h2 with h2 h3
    subst h1 h2 h3
    cases hs : self.stateTensorsShape with
    | none => exact absurd hs hn
    | some b => exact ⟨b, rfl, rfl, rfl, rfl⟩

theorem MoveTensorsShape_ok (E : Engine ε) (self : LudiiGameWrapper) (rt : Runtime ε)
    (r : Option IntBlock) (w : LudiiGameWrapper) (rt' : Runtime ε)
    (h : LudiiGameWrapper.MoveTensorsShape E self rt = Except.ok (r, w, rt')) :
    (∃ b, self.moveTensorsShape = some b ∧ r = some b ∧ w = self ∧ rt' = rt) ∨
    (self.moveTensorsShape = none ∧ ∃ blk,
      fetchShape E self.ludiiGameWrapperJavaObject self.moveTensorsShapeMethodID rt
        = Except.ok (blk, rt') ∧
      r = some blk ∧ w = { self with moveTensorsShape := some blk }) := by
  rw [MoveTensorsShape_eq] at h
  split at h
  · rename_i hn
    right
    refine ⟨hn, ?_⟩
    split at h
    · cases h
    · rename_i blk1 rt2 hf
      injection h with h
      injection h with h1 h2
      injection h2 with h2 h3
      subst h1 h2 h3
      exact ⟨blk1, hf, rfl, rfl⟩
  · rename_i hn
    left
    injection h with h
    injection h with h1 h2
    injection h2 with h2 h3
    subst h1 h2 h3
    cases hs : self.moveTensorsShape with
    | none => exact absurd hs hn
    | some b => exact ⟨b, rfl, rfl, rfl, rfl⟩

/-- The events of any call of `StateTensorsShape`, returning or not: none, or
one invocation with the state identifier followed by buffer accesses. -/
theorem StateTensorsShape_trace (E : Engine ε) (self : LudiiGameWrapper) (rt : Runtime ε) :
    (self.stateTensorsShape ≠ none ∧
      newEvents rt (finalRuntime (LudiiGameWrapper.StateTensorsShape E self rt)) = []) ∨
    (self.stateTensorsShape = none ∧ ∃ res d,
      newEvents rt (finalRuntime (LudiiGameWrapper.StateTensorsShape E self rt)) =
        Event.CallObjectMethod self.ludiiGameWrapperJavaObject
          self.stateTensorsShapeMethodID res :: d ∧
      ∀ e ∈ d, e.isBufferAccess = true) := by
  rw [StateTensorsShape_eq]
  by_cases hn : self.stateTensorsShape = none
  · right
    refine ⟨hn, ?_⟩
    obtain ⟨d, hd, hb⟩ := fetchShape_trace E self.ludiiGameWrapperJavaObject
      self.stateTensorsShapeMethodID rt
    refine ⟨(CallObjectMethod E self.ludiiGameWrapperJavaObject
      self.stateTensorsShapeMethodID rt).1, d, ?_, hb⟩
    apply newEvents_append
    rw [← hd]
    simp only [hn, if_true]
    cases fetchShape E self.ludiiGameWrapperJavaObject self.stateTensorsShapeMethodID rt <;> rfl
  · left
    refine ⟨hn, ?_⟩
    simp only [hn, if_false, finalRuntime]
    exact newEvents_self rt

theorem MoveTensorsShape_trace (E : Engine ε) (self : LudiiGameWrapper) (rt : Runtime ε) :
    (self.moveTensorsShape ≠ none ∧
      newEvents rt (finalRuntime (LudiiGameWrapper.MoveTensorsShape E self rt)) = []) ∨
    (self.moveTensorsShape = none ∧ ∃ res d,
      newEvents rt (finalRuntime (LudiiGameWrapper.MoveTensorsShape E self rt)) =
        Event.CallObjectMethod self.ludiiGameWrapperJavaObject
          self.moveTensorsShapeMethodID res :: d ∧
      ∀ e ∈ d, e.isBufferAccess = true) := by
  rw [MoveTensorsShape_eq]
  by_cases hn : self.moveTensorsShape = none
  · right
    refine ⟨hn, ?_⟩
    obtain ⟨d, hd, hb⟩ := fetchShape_trace E self.ludiiGameWrapperJavaObject
      self.moveTensorsShapeMethodID rt
    refine ⟨(CallObjectMethod E self.ludiiGameWrapperJavaObject
      self.moveTensorsShapeMethodID rt).1, d, ?_, hb⟩
    apply newEvents_append
    rw [← hd]
    simp only [hn, if_true]
    cases fetchShape E self.ludiiGameWrapperJavaObject self.moveTensorsShapeMethodID rt <;> rfl
  · left
    refine ⟨hn, ?_⟩
    simp only [hn, if_false, finalRuntime]
    exact newEvents_self rt

/-! ## Claims about the accessors -/

/-- C1: on an unpopulated cache, when the foreign shape method returns an int
array `a` of length at least 3, `StateTensorsShape` (resp. `MoveTensorsShape`)
returns a pointer to the three integers `a[0], a[1], a[2]`, unchanged, and
stores that block as its cache; with the stub engine the state shape is
`[3, 8, 8]` and the move shape `[4, 1, 1]`. -/
theorem shape_accessors_return_first_three (E : Engine ε) (self : LudiiGameWrapper)
    (rt : Runtime ε) (a : List jint) (h3 : 3 ≤ a.length) :
    (self.stateTensorsShape = none →
      deref
        (CallObjectMethod E self.ludiiGameWrapperJavaObject
          self.stateTensorsShapeMethodID rt).2.heap
        (CallObjectMethod E self.ludiiGameWrapperJavaObject
          self.stateTensorsShapeMethodID rt).1 = some (JObj.intArray a) →
      ∃ addr rt',
        LudiiGameWrapper.StateTensorsShape E self rt =
          Except.ok
            (some ⟨addr, [(a.get ⟨0, Nat.lt_of_lt_of_le (by decide) h3⟩).val, (a.get ⟨1, Nat.lt_of_lt_of_le (by decide) h3⟩).val,
              (a.get ⟨2, Nat.lt_of_lt_of_le (by decide) h3⟩).val]⟩,
             { self with
                 stateTensorsShape := some (IntBlock.mk addr
                   [(a.get ⟨0, Nat.lt_of_lt_of_le (by decide) h3⟩).val, (a.get ⟨1, Nat.lt_of_lt_of_le (by decide) h3⟩).val,
                    (a.get ⟨2, Nat.lt_of_lt_of_le (by decide) h3⟩).val]) },
             rt')) ∧
    (self.moveTensorsShape = none →
      deref
        (CallObjectMethod E self.ludiiGameWrapperJavaObject
          self.moveTensorsShapeMethodID rt).2.heap
        (CallObjectMethod E self.ludiiGameWrapperJavaObject
          self.moveTensorsShapeMethodID rt).1 = some (JObj.intArray a) →
      ∃ addr rt',
        LudiiGameWrapper.MoveTensorsShape E self rt =
          Except.ok
            (some ⟨addr, [(a.get ⟨0, Nat.lt_of_lt_of_le (by decide) h3⟩).val, (a.get ⟨1, Nat.lt_of_lt_of_le (by decide) h3⟩).val,
              (a.get ⟨2, Nat.lt_of_lt_of_le (by decide) h3⟩).val]⟩,
             { self with
                 moveTensorsShape := some (IntBlock.mk addr
                   [(a.get ⟨0, Nat.lt_of_lt_of_le (by decide) h3⟩).val, (a.get ⟨1, Nat.lt_of_lt_of_le (by decide) h3⟩).val,
                    (a.get ⟨2, Nat.lt_of_lt_of_le (by decide) h3⟩).val]) },
             rt')) ∧
    returnedShape
      (LudiiGameWrapper.StateTensorsShape stubEngine
        (LudiiGameWrapper.Construct stubEngine 0 "game.lud" (Runtime.init ())).1
        (LudiiGameWrapper.Construct stubEngine 0 "game.lud" (Runtime.init ())).2)
      = some [3, 8, 8] ∧
    returnedShape
      (LudiiGameWrapper.MoveTensorsShape stubEngine
        (LudiiGameWrapper.Construct stubEngine 0 "game.lud" (Runtime.init ())).1
        (LudiiGameWrapper.Construct stubEngine 0 "game.lud" (Runtime.init ())).2)
      = some [4, 1, 1] := by
  match a, h3 with
  | a0 :: a1 :: a2 :: rest, _ =>
    refine ⟨?_, ?_, by decide, by decide⟩
    · intro hn hd
      refine ⟨(CallObjectMethod E self.ludiiGameWrapperJavaObject
          self.stateTensorsShapeMethodID rt).2.nativeBlocks + 1,
        fetchedRuntime (CallObjectMethod E self.ludiiGameWrapperJavaObject
          self.stateTensorsShapeMethodID rt), ?_⟩
      rw [StateTensorsShape_eq, if_pos hn, fetchShape_long E _ _ rt a0 a1 a2 rest hd]
      rfl
    · intro hn hd
      refine ⟨(CallObjectMethod E self.ludiiGameWrapperJavaObject
          self.moveTensorsShapeMethodID rt).2.nativeBlocks + 1,
        fetchedRuntime (CallObjectMethod E self.ludiiGameWrapperJavaObject
          self.moveTensorsShapeMethodID rt), ?_⟩
      rw [MoveTensorsShape_eq, if_pos hn, fetchShape_long E _ _ rt a0 a1 a2 rest hd]
      rfl

/-- Witness for C1: the stub engine, a freshly constructed wrapper and the
array `[3, 8, 8]`. -/
theorem shape_accessors_return_first_three_witness :
    3 ≤ [jintOf 3 (by decide), jintOf 8 (by decide), jintOf 8 (by decide)].length ∧
    ∃ addr rt',
      LudiiGameWrapper.StateTensorsShape stubEngine
        (LudiiGameWrapper.Construct stubEngine 0 "game.lud" (Runtime.init ())).1
        (LudiiGameWrapper.Construct stubEngine 0 "game.lud" (Runtime.init ())).2 =
        Except.ok
          (some ⟨addr, [3, 8, 8]⟩,
           { (LudiiGameWrapper.Construct stubEngine 0 "game.lud" (Runtime.init ())).1 with
               stateTensorsShape := some (IntBlock.mk addr [3, 8, 8]) },
           rt') :=
  ⟨by decide,
   (shape_accessors_return_first_three stubEngine
      (LudiiGameWrapper.Construct stubEngine 0 "game.lud" (Runtime.init ())).1
      (LudiiGameWrapper.Construct stubEngine 0 "game.lud" (Runtime.init ())).2
      [jintOf 3 (by decide), jintOf 8 (by decide), jintOf 8 (by decide)] (by decide)).1
     (by decide) (by decide)⟩

theorem fetchedRuntime_reads (c : jobject × Runtime ε) (rt : Runtime ε) (e : Event)
    (h : c.2.trace = rt.trace ++ [e]) (he : e.isRead = false) :
    (newEvents rt (fetchedRuntime c)).filter Event.isRead =
      [Event.read (c.2.nextBuffer + 1) 0, Event.read (c.2.nextBuffer + 1) 1,
       Event.read (c.2.nextBuffer + 1) 2] := by
  have ht : (fetchedRuntime c).trace = rt.trace ++ (e ::
      [Event.GetIntArrayElements c.1 (c.2.nextBuffer + 1),
       Event.read (c.2.nextBuffer + 1) 0, Event.read (c.2.nextBuffer + 1) 1,
       Event.read (c.2.nextBuffer + 1) 2,
       Event.ReleaseIntArrayElements c.1 (c.2.nextBuffer + 1) 0]) := by
    simp [fetchedRuntime, h]
  rw [newEvents_append rt _ _ ht]
  rw [List.filter_cons_of_neg (by simp [he])]
  rfl

/-- C10: the accessors read the indices 0, 1 and 2 of the acquired buffer
without any length check.  When the foreign array has at least 3 elements the
call returns (no fault), the reads are exactly those of indices 0, 1, 2 and the
result holds the first three elements only; when it has fewer than 3 elements
the elements were acquired all the same, the reads are again those of indices
0, 1 and 2, so every index up to the length was read, and the read at index
`a.length` is out of bounds. -/
theorem shape_accessors_read_three_unchecked (E : Engine ε) (self : LudiiGameWrapper)
    (rt : Runtime ε) (a : List jint) :
    (self.stateTensorsShape = none →
      deref
        (CallObjectMethod E self.ludiiGameWrapperJavaObject
          self.stateTensorsShapeMethodID rt).2.heap
        (CallObjectMethod E self.ludiiGameWrapperJavaObject
          self.stateTensorsShapeMethodID rt).1 = some (JObj.intArray a) →
      (3 ≤ a.length →
        ∃ p r w rt',
          LudiiGameWrapper.StateTensorsShape E self rt = Except.ok (r, w, rt') ∧
          returnedShape (LudiiGameWrapper.StateTensorsShape E self rt)
            = some ((a.take 3).map (fun x => x.val)) ∧
          (newEvents rt rt').filter Event.isRead =
            [Event.read p 0, Event.read p 1, Event.read p 2]) ∧
      (a.length < 3 →
        ∃ p rt', p ≠ 0 ∧
          LudiiGameWrapper.StateTensorsShape E self rt =
            Except.error (Fault.outOfBounds a.length a.length, rt') ∧
          Event.GetIntArrayElements
            (CallObjectMethod E self.ludiiGameWrapperJavaObject
              self.stateTensorsShapeMethodID rt).1 p ∈ newEvents rt rt' ∧
          (List.range (a.length + 1)).map (Event.read p) <+:
            (newEvents rt rt').filter Event.isRead ∧
          (newEvents rt rt').filter Event.isRead =
            [Event.read p 0, Event.read p 1, Event.read p 2])) ∧
    (self.moveTensorsShape = none →
      deref
        (CallObjectMethod E self.ludiiGameWrapperJavaObject
          self.moveTensorsShapeMethodID rt).2.heap
        (CallObjectMethod E self.ludiiGameWrapperJavaObject
          self.moveTensorsShapeMethodID rt).1 = some (JObj.intArray a) →
      (3 ≤ a.length →
        ∃ p r w rt',
          LudiiGameWrapper.MoveTensorsShape E self rt = Except.ok (r, w, rt') ∧
          returnedShape (LudiiGameWrapper.MoveTensorsShape E self rt)
            = some ((a.take 3).map (fun x => x.val)) ∧
          (newEvents rt rt').filter Event.isRead =
            [Event.read p 0, Event.read p 1, Event.read p 2]) ∧
      (a.length < 3 →
        ∃ p rt', p ≠ 0 ∧
          LudiiGameWrapper.MoveTensorsShape E self rt =
            Except.error (Fault.outOfBounds a.length a.length, rt') ∧
          Event.GetIntArrayElements
            (CallObjectMethod E self.ludiiGameWrapperJavaObject
              self.moveTensorsShapeMethodID rt).1 p ∈ newEvents rt rt' ∧
          (List.range (a.length + 1)).map (Event.read p) <+:
            (newEvents rt rt').filter Event.isRead ∧
          (newEvents rt rt').filter Event.isRead =
            [Event.read p 0, Event.read p 1, Event.read p 2])) := by
  constructor
  · intro hn hd
    constructor
    · intro h3
      match a, h3 with
      | a0 :: a1 :: a2 :: rest, _ =>
        have hf := fetchShape_long E self.ludiiGameWrapperJavaObject
          self.stateTensorsShapeMethodID rt a0 a1 a2 rest hd
        have hs : LudiiGameWrapper.StateTensorsShape E self rt = Except.ok
            (some ⟨(CallObjectMethod E self.ludiiGameWrapperJavaObject
                self.stateTensorsShapeMethodID rt).2.nativeBlocks + 1,
              [a0.val, a1.val, a2.val]⟩,
             { self with
                 stateTensorsShape := some (IntBlock.mk
                   ((CallObjectMethod E self.ludiiGameWrapperJavaObject
                     self.stateTensorsShapeMethodID rt).2.nativeBlocks + 1)
                   [a0.val, a1.val, a2.val]) },
             fetchedRuntime (CallObjectMethod E self.ludiiGameWrapperJavaObject
               self.stateTensorsShapeMethodID rt)) := by
          rw [StateTensorsShape_eq, if_pos hn, hf]
        refine ⟨(CallObjectMethod E self.ludiiGameWrapperJavaObject
          self.stateTensorsShapeMethodID rt).2.nextBuffer + 1, _, _, _, hs, ?_, ?_⟩
        · rw [hs]
          simp [returnedShape]
        · exact fetchedRuntime_reads _ rt _ (CallObjectMethod_trace E _ _ rt) rfl
    · intro hlt
      have h1 := fetchShape_short E self.ludiiGameWrapperJavaObject
        self.stateTensorsShapeMethodID rt a hlt hd
      have hr := fetchedRuntime_reads (CallObjectMethod E self.ludiiGameWrapperJavaObject
        self.stateTensorsShapeMethodID rt) rt _ (CallObjectMethod_trace E _ _ rt) rfl
      refine ⟨(CallObjectMethod E self.ludiiGameWrapperJavaObject
        self.stateTensorsShapeMethodID rt).2.nextBuffer + 1,
        fetchedRuntime (CallObjectMethod E self.ludiiGameWrapperJavaObject
          self.stateTensorsShapeMethodID rt), by omega, ?_, ?_, ?_, hr⟩
      · rw [StateTensorsShape_eq, if_pos hn, h1]
      · rw [newEvents_append rt _ _ (fetchedRuntime_trace E _ _ rt)]
        simp
      · rw [hr]
        match a, hlt with
        | [], _ => exact ⟨[_, _], rfl⟩
        | [_], _ => exact ⟨[_], rfl⟩
        | [_, _], _ => exact ⟨[], rfl⟩
        | _ :: _ :: _ :: _, hl => simp at hl; omega
  · intro hn hd
    constructor
    · intro h3
      match a, h3 with
      | a0 :: a1 :: a2 :: rest, _ =>
        have hf := fetchShape_long E self.ludiiGameWrapperJavaObject
          self.moveTensorsShapeMethodID rt a0 a1 a2 rest hd
        have hs : LudiiGameWrapper.MoveTensorsShape E self rt = Except.ok
            (some ⟨(CallObjectMethod E self.ludiiGameWrapperJavaObject
                self.moveTensorsShapeMethodID rt).2.nativeBlocks + 1,
              [a0.val, a1.val, a2.val]⟩,
             { self with
                 moveTensorsShape := some (IntBlock.mk
                   ((CallObjectMethod E self.ludiiGameWrapperJavaObject
                     self.moveTensorsShapeMethodID rt).2.nativeBlocks + 1)
                   [a0.val, a1.val, a2.val]) },
             fetchedRuntime (CallObjectMethod E self.ludiiGameWrapperJavaObject
               self.moveTensorsShapeMethodID rt)) := by
          rw [MoveTensorsShape_eq, if_pos hn, hf]
        refine ⟨(CallObjectMethod E self.ludiiGameWrapperJavaObject
          self.moveTensorsShapeMethodID rt).2.nextBuffer + 1, _, _, _, hs, ?_, ?_⟩
        · rw [hs]
          simp [returnedShape]
        · exact fetchedRuntime_reads _ rt _ (CallObjectMethod_trace E _ _ rt) rfl
    · intro hlt
      have h1 := fetchShape_short E self.ludiiGameWrapperJavaObject
        self.moveTensorsShapeMethodID rt a hlt hd
      have hr := fetchedRuntime_reads (CallObjectMethod E self.ludiiGameWrapperJavaObject
        self.moveTensorsShapeMethodID rt) rt _ (CallObjectMethod_trace E _ _ rt) rfl
      refine ⟨(CallObjectMethod E self.ludiiGameWrapperJavaObject
        self.moveTensorsShapeMethodID rt).2.nextBuffer + 1,
        fetchedRuntime (CallObjectMethod E self.ludiiGameWrapperJavaObject
          self.moveTensorsShapeMethodID rt), by omega, ?_, ?_, ?_, hr⟩
      · rw [MoveTensorsShape_eq, if_pos hn, h1]
      · rw [newEvents_append rt _ _ (fetchedRuntime_trace E _ _ rt)]
        simp
      · rw [hr]
        match a, hlt with
        | [], _ => exact ⟨[_, _], rfl⟩
        | [_], _ => exact ⟨[_], rfl⟩
        | [_, _], _ => exact ⟨[], rfl⟩
        | _ :: _ :: _ :: _, hl => simp at hl; omega

/-- Witness for C10: an engine whose state-shape method returns the two-element
array `[3, 8]`; the first call reads indices 0, 1 and 2, and the read of
index 2 is out of bounds. -/
theorem shape_accessors_read_three_unchecked_witness :
    [jintOf 3 (by decide), jintOf 8 (by decide)].length < 3 ∧
    ∃ p rt', p ≠ 0 ∧
      LudiiGameWrapper.StateTensorsShape shortEngine
        (LudiiGameWrapper.Construct shortEngine 0 "game.lud" (Runtime.init ())).1
        (LudiiGameWrapper.Construct shortEngine 0 "game.lud" (Runtime.init ())).2 =
        Except.error (Fault.outOfBounds 2 2, rt') ∧
      Event.GetIntArrayElements 3 p ∈
        newEvents (LudiiGameWrapper.Construct shortEngine 0 "game.lud" (Runtime.init ())).2 rt' ∧
      [Event.read p 0, Event.read p 1, Event.read p 2] <+:
        (newEvents (LudiiGameWrapper.Construct shortEngine 0 "game.lud" (Runtime.init ())).2
          rt').filter Event.isRead ∧
      (newEvents (LudiiGameWrapper.Construct shortEngine 0 "game.lud" (Runtime.init ())).2
          rt').filter Event.isRead = [Event.read p 0, Event.read p 1, Event.read p 2] :=
  ⟨by decide,
   ((shape_accessors_read_three_unchecked shortEngine
      (LudiiGameWrapper.Construct shortEngine 0 "game.lud" (Runtime.init ())).1
      (LudiiGameWrapper.Construct shortEngine 0 "game.lud" (Runtime.init ())).2
      [jintOf 3 (by decide), jintOf 8 (by decide)]).1 (by decide) (by decide)).2 (by decide)⟩

/-- C3: the two caches are independent.  A returning call of one accessor leaves
the other cache, the runtime handle, the class handle, the counterpart
reference and both method identifiers as they were; every method invocation an
accessor makes, returning or not, is on the counterpart object with that
accessor's own identifier, so that (the two identifiers being different) it
never invokes the other shape method. -/
theorem shape_accessors_frame (E : Engine ε) (self : LudiiGameWrapper) (rt : Runtime ε) :
    (∀ r w rt', LudiiGameWrapper.StateTensorsShape E self rt = Except.ok (r, w, rt') →
      w.moveTensorsShape = self.moveTensorsShape ∧ w.jenv = self.jenv ∧
      w.ludiiGameWrapperClass = self.ludiiGameWrapperClass ∧
      w.ludiiGameWrapperJavaObject = self.ludiiGameWrapperJavaObject ∧
      w.stateTensorsShapeMethodID = self.stateTensorsShapeMethodID ∧
      w.moveTensorsShapeMethodID = self.moveTensorsShapeMethodID) ∧
    (∀ o m res, Event.CallObjectMethod o m res ∈
        newEvents rt (finalRuntime (LudiiGameWrapper.StateTensorsShape E self rt)) →
      o = self.ludiiGameWrapperJavaObject ∧ m = self.stateTensorsShapeMethodID) ∧
    (self.stateTensorsShapeMethodID ≠ self.moveTensorsShapeMethodID →
      ∀ o res, Event.CallObjectMethod o self.moveTensorsShapeMethodID res ∉
        newEvents rt (finalRuntime (LudiiGameWrapper.StateTensorsShape E self rt))) ∧
    (∀ r w rt', LudiiGameWrapper.MoveTensorsShape E self rt = Except.ok (r, w, rt') →
      w.stateTensorsShape = self.stateTensorsShape ∧ w.jenv = self.jenv ∧
      w.ludiiGameWrapperClass = self.ludiiGameWrapperClass ∧
      w.ludiiGameWrapperJavaObject = self.ludiiGameWrapperJavaObject ∧
      w.stateTensorsShapeMethodID = self.stateTensorsShapeMethodID ∧
      w.moveTensorsShapeMethodID = self.moveTensorsShapeMethodID) ∧
    (∀ o m res, Event.CallObjectMethod o m res ∈
        newEvents rt (finalRuntime (LudiiGameWrapper.MoveTensorsShape E self rt)) →
      o = self.ludiiGameWrapperJavaObject ∧ m = self.moveTensorsShapeMethodID) ∧
    (self.stateTensorsShapeMethodID ≠ self.moveTensorsShapeMethodID →
      ∀ o res, Event.CallObjectMethod o self.stateTensorsShapeMethodID res ∉
        newEvents rt (finalRuntime (LudiiGameWrapper.MoveTensorsShape E self rt))) := by
  have hS : ∀ o m res, Event.CallObjectMethod o m res ∈
        newEvents rt (finalRuntime (LudiiGameWrapper.StateTensorsShape E self rt)) →
      o = self.ludiiGameWrapperJavaObject ∧ m = self.stateTensorsShapeMethodID := by
    intro o m res hmem
    rcases StateTensorsShape_trace E self rt with ⟨_, h⟩ | ⟨_, res', d, h, hb⟩
    · rw [h] at hmem
      cases hmem
    · rw [h] at hmem
      rcases List.mem_cons.1 hmem with heq | hin
      · injection heq with h1 h2 _
        exact ⟨h1, h2⟩
      · have := hb _ hin
        simp [Event.isBufferAccess] at this
  have hM : ∀ o m res, Event.CallObjectMethod o m res ∈
        newEvents rt (finalRuntime (LudiiGameWrapper.MoveTensorsShape E self rt)) →
      o = self.ludiiGameWrapperJavaObject ∧ m = self.moveTensorsShapeMethodID := by
    intro o m res hmem
    rcases MoveTensorsShape_trace E self rt with ⟨_, h⟩ | ⟨_, res', d, h, hb⟩
    · rw [h] at hmem
      cases hmem
    · rw [h] at hmem
      rcases List.mem_cons.1 hmem with heq | hin
      · injection heq with h1 h2 _
        exact ⟨h1, h2⟩
      · have := hb _ hin
        simp [Event.isBufferAccess] at this
  refine ⟨?_, hS, ?_, ?_, hM, ?_⟩
  · intro r w rt' h
    rcases StateTensorsShape_ok E self rt r w rt' h with ⟨b, _, _, hw, _⟩ | ⟨_, blk, _, _, hw⟩
    · subst hw
      exact ⟨rfl, rfl, rfl, rfl, rfl, rfl⟩
    · subst hw
      exact ⟨rfl, rfl, rfl, rfl, rfl, rfl⟩
  · intro hne o res hmem
    exact hne (hS o _ res hmem).2.symm
  · intro r w rt' h
    rcases MoveTensorsShape_ok E self rt r w rt' h with ⟨b, _, _, hw, _⟩ | ⟨_, blk, _, _, hw⟩
    · subst hw
      exact ⟨rfl, rfl, rfl, rfl, rfl, rfl⟩
    · subst hw
      exact ⟨rfl, rfl, rfl, rfl, rfl, rfl⟩
  · intro hne o res hmem
    exact hne (hM o _ res hmem).2

/-- Witness for C3: on a wrapper constructed over the stub engine (state
identifier 3, move identifier 4) the first call of `StateTensorsShape` makes no
invocation with the move identifier, and leaves the move cache unpopulated. -/
theorem shape_accessors_frame_witness :
    (3 : Nat) ≠ 4 ∧
    (∀ o res, Event.CallObjectMethod o 4 res ∉
      newEvents (LudiiGameWrapper.Construct stubEngine 0 "game.lud" (Runtime.init ())).2
        (finalRuntime (LudiiGameWrapper.StateTensorsShape stubEngine
          (LudiiGameWrapper.Construct stubEngine 0 "game.lud" (Runtime.init ())).1
          (LudiiGameWrapper.Construct stubEngine 0 "game.lud" (Runtime.init ())).2))) ∧
    (∀ r w rt', LudiiGameWrapper.StateTensorsShape stubEngine
          (LudiiGameWrapper.Construct stubEngine 0 "game.lud" (Runtime.init ())).1
          (LudiiGameWrapper.Construct stubEngine 0 "game.lud" (Runtime.init ())).2
        = Except.ok (r, w, rt') → w.moveTensorsShape = none) :=
  ⟨by decide,
   (shape_accessors_frame stubEngine
      (LudiiGameWrapper.Construct stubEngine 0 "game.lud" (Runtime.init ())).1
      (LudiiGameWrapper.Construct stubEngine 0 "game.lud" (Runtime.init ())).2).2.2.1
     (by decide),
   fun r w rt' h =>
     ((shape_accessors_frame stubEngine
        (LudiiGameWrapper.Construct stubEngine 0 "game.lud" (Runtime.init ())).1
        (LudiiGameWrapper.Construct stubEngine 0 "game.lud" (Runtime.init ())).2).1
       r w rt' h).1⟩

theorem runCalls_ok_cons (E : Engine ε) (c : Accessor) (cs : List Accessor)
    (w : LudiiGameWrapper) (rt : Runtime ε) (rs : List (Option IntBlock))
    (w2 : LudiiGameWrapper) (rt2 : Runtime ε)
    (h : runCalls E (c :: cs) w rt = Except.ok (rs, w2, rt2)) :
    ∃ r w1 rt1 rs', callAccessor E c w rt = Except.ok (r, w1, rt1) ∧
      runCalls E cs w1 rt1 = Except.ok (rs', w2, rt2) ∧ rs = r :: rs' := by
  simp only [runCalls] at h
  split at h
  · cases h
  · rename_i r w1 rt1 hc
    split at h
    · cases h
    · rename_i rs' w2' rt2' hr
      injection h with h
      injection h with h1 h2
      injection h2 with h2 h3
      subst h1 h2 h3
      exact ⟨r, w1, rt1, rs', hc, hr, rfl⟩

/-- Once the state cache holds a block, every later sequence of accessor calls
keeps it, and every `StateTensorsShape` call in it returns that block. -/
theorem runCalls_state_stable (E : Engine ε) (b : IntBlock) :
    ∀ (cs : List Accessor) (w : LudiiGameWrapper) (rt : Runtime ε)
      (rs : List (Option IntBlock)) (w2 : LudiiGameWrapper) (rt2 : Runtime ε),
      w.stateTensorsShape = some b →
      runCalls E cs w rt = Except.ok (rs, w2, rt2) →
      w2.stateTensorsShape = some b ∧
      ∀ i : Nat, cs[i]? = some Accessor.state → rs[i]? = some (some b)
  | [], w, rt, rs, w2, rt2, hb, h => by
    simp only [runCalls] at h
    injection h with h
    injection h with h1 h2
    injection h2 with h2 h3
    subst h1 h2 h3
    exact ⟨hb, by simp⟩
  | c :: cs, w, rt, rs, w2, rt2, hb, h => by
    obtain ⟨r, w1, rt1, rs', hc, hr, rfl⟩ := runCalls_ok_cons E c cs w rt rs w2 rt2 h
    have hstep : w1.stateTensorsShape = some b ∧ (c = Accessor.state → r = some b) := by
      cases c with
      | state =>
        simp only [callAccessor] at hc
        rw [StateTensorsShape_populated E w rt b hb] at hc
        injection hc with hc
        injection hc with h1 h2
        injection h2 with h2 h3
        subst h1 h2 h3
        exact ⟨hb, fun _ => rfl⟩
      | move =>
        simp only [callAccessor] at hc
        rcases MoveTensorsShape_ok E w rt r w1 rt1 hc with
          ⟨_, _, _, hw, _⟩ | ⟨_, blk, _, _, hw⟩
        · subst hw
          exact ⟨hb, fun h => by cases h⟩
        · subst hw
          exact ⟨hb, fun h => by cases h⟩
    obtain ⟨ih1, ih2⟩ := runCalls_state_stable E b cs w1 rt1 rs' w2 rt2 hstep.1 hr
    refine ⟨ih1, ?_⟩
    intro i hi
    cases i with
    | zero =>
      simp only [List.getElem?_cons_zero, Option.some.injEq] at hi ⊢
      exact hstep.2 hi
    | succ j =>
      simp only [List.getElem?_cons_succ] at hi ⊢
      exact ih2 j hi

theorem runCalls_move_stable (E : Engine ε) (b : IntBlock) :
    ∀ (cs : List Accessor) (w : LudiiGameWrapper) (rt : Runtime ε)
      (rs : List (Option IntBlock)) (w2 : LudiiGameWrapper) (rt2 : Runtime ε),
      w.moveTensorsShape = some b →
      runCalls E cs w rt = Except.ok (rs, w2, rt2) →
      w2.moveTensorsShape = some b ∧
      ∀ i : Nat, cs[i]? = some Accessor.move → rs[i]? = some (some b)
  | [], w, rt, rs, w2, rt2, hb, h => by
    simp only [runCalls] at h
    injection h with h
    injection h with h1 h2
    injection h2 with h2 h3
    subst h1 h2 h3
    exact ⟨hb, by simp⟩
  | c :: cs, w, rt, rs, w2, rt2, hb, h => by
    obtain ⟨r, w1, rt1, rs', hc, hr, rfl⟩ := runCalls_ok_cons E c cs w rt rs w2 rt2 h
    have hstep : w1.moveTensorsShape = some b ∧ (c = Accessor.move → r = some b) := by
      cases c with
      | move =>
        simp only [callAccessor] at hc
        rw [MoveTensorsShape_populated E w rt b hb] at hc
        injection hc with hc
        injection hc with h1 h2
        injection h2 with h2 h3
        subst h1 h2 h3
        exact ⟨hb, fun _ => rfl⟩
      | state =>
        simp only [callAccessor] at hc
        rcases StateTensorsShape_ok E w rt r w1 rt1 hc with
          ⟨_, _, _, hw, _⟩ | ⟨_, blk, _, _, hw⟩
        · subst hw
          exact ⟨hb, fun h => by cases h⟩
        · subst hw
          exact ⟨hb, fun h => by cases h⟩
    obtain ⟨ih1, ih2⟩ := runCalls_move_stable E b cs w1 rt1 rs' w2 rt2 hstep.1 hr
    refine ⟨ih1, ?_⟩
    intro i hi
    cases i with
    | zero =>
      simp only [List.getElem?_cons_zero, Option.some.injEq] at hi ⊢
      exact hstep.2 hi
    | succ j =>
      simp only [List.getElem?_cons_succ] at hi ⊢
      exact ih2 j hi

theorem runCalls_state_replicate (E : Engine ε) (b : IntBlock) (w : LudiiGameWrapper)
    (rt : Runtime ε) (hb : w.stateTensorsShape = some b) :
    ∀ n, runCalls E (List.replicate n Accessor.state) w rt =
      Except.ok (List.replicate n (some b), w, rt)
  | 0 => rfl
  | n + 1 => by
    simp only [List.replicate_succ, runCalls, callAccessor]
    rw [StateTensorsShape_populated E w rt b hb]
    simp only []
    rw [runCalls_state_replicate E b w rt hb n]

theorem runCalls_move_replicate (E : Engine ε) (b : IntBlock) (w : LudiiGameWrapper)
    (rt : Runtime ε) (hb : w.moveTensorsShape = some b) :
    ∀ n, runCalls E (List.replicate n Accessor.move) w rt =
      Except.ok (List.replicate n (some b), w, rt)
  | 0 => rfl
  | n + 1 => by
    simp only [List.replicate_succ, runCalls, callAccessor]
    rw [MoveTensorsShape_populated E w rt b hb]
    simp only []
    rw [runCalls_move_replicate E b w rt hb n]

theorem invoke_count_le_one (res : jobject) (obj : jobject) (mid : jmethodID)
    (d : List Event) (hb : ∀ e ∈ d, e.isBufferAccess = true) :
    ((Event.CallObjectMethod obj mid res :: d).filter Event.isInvoke).length ≤ 1 := by
  have hd : d.filter Event.isInvoke = [] := by
    rw [List.filter_eq_nil_iff]
    intro e he
    have := hb e he
    cases e <;> simp_all [Event.isBufferAccess, Event.isInvoke]
  rw [List.filter_cons_of_pos (by rfl), hd]
  simp

/-- C2: when a call of `StateTensorsShape` (resp. `MoveTensorsShape`) returns,
it returns a non-null pointer to the block now held as the cache, it made at
most one foreign method invocation, any number of further calls return that
same block (same address, same three values) without changing the wrapper or
the runtime, hence without invoking the foreign method again whatever it would
answer, and no later sequence of accessor calls of either kind changes the
cache. -/
theorem shape_accessors_cached_once (E : Engine ε) (self : LudiiGameWrapper)
    (rt : Runtime ε) (r : Option IntBlock) (w1 : LudiiGameWrapper) (rt1 : Runtime ε) :
    (LudiiGameWrapper.StateTensorsShape E self rt = Except.ok (r, w1, rt1) →
      r ≠ none ∧ w1.stateTensorsShape = r ∧
      ((newEvents rt rt1).filter Event.isInvoke).length ≤ 1 ∧
      (∀ n, runCalls E (List.replicate n Accessor.state) w1 rt1 =
        Except.ok (List.replicate n r, w1, rt1)) ∧
      (∀ cs rs w2 rt2, runCalls E cs w1 rt1 = Except.ok (rs, w2, rt2) →
        w2.stateTensorsShape = r ∧
        ∀ i : Nat, cs[i]? = some Accessor.state → rs[i]? = some r)) ∧
    (LudiiGameWrapper.MoveTensorsShape E self rt = Except.ok (r, w1, rt1) →
      r ≠ none ∧ w1.moveTensorsShape = r ∧
      ((newEvents rt rt1).filter Event.isInvoke).length ≤ 1 ∧
      (∀ n, runCalls E (List.replicate n Accessor.move) w1 rt1 =
        Except.ok (List.replicate n r, w1, rt1)) ∧
      (∀ cs rs w2 rt2, runCalls E cs w1 rt1 = Except.ok (rs, w2, rt2) →
        w2.moveTensorsShape = r ∧
        ∀ i : Nat, cs[i]? = some Accessor.move → rs[i]? = some r)) := by
  constructor
  · intro h
    have hcount : ((newEvents rt rt1).filter Event.isInvoke).length ≤ 1 := by
      have hfin : finalRuntime (LudiiGameWrapper.StateTensorsShape E self rt) = rt1 := by
        rw [h]
        rfl
      rcases StateTensorsShape_trace E self rt with ⟨_, ht⟩ | ⟨_, res, d, ht, hb⟩
      · rw [hfin] at ht
        rw [ht]
        simp
      · rw [hfin] at ht
        rw [ht]
        exact invoke_count_le_one res _ _ d hb
    have hex : ∃ b, r = some b ∧ w1.stateTensorsShape = some b := by
      rcases StateTensorsShape_ok E self rt r w1 rt1 h with
        ⟨b, hb, hr, hw, _⟩ | ⟨_, blk, _, hr, hw⟩
      · subst hw
        exact ⟨b, hr, hb⟩
      · subst hw
        exact ⟨blk, hr, rfl⟩
    obtain ⟨b, hr, hw⟩ := hex
    subst hr
    refine ⟨by simp, hw, hcount, runCalls_state_replicate E b w1 rt1 hw, ?_⟩
    intro cs rs w2 rt2 hrun
    exact runCalls_state_stable E b cs w1 rt1 rs w2 rt2 hw hrun
  · intro h
    have hcount : ((newEvents rt rt1).filter Event.isInvoke).length ≤ 1 := by
      have hfin : finalRuntime (LudiiGameWrapper.MoveTensorsShape E self rt) = rt1 := by
        rw [h]
        rfl
      rcases MoveTensorsShape_trace E self rt with ⟨_, ht⟩ | ⟨_, res, d, ht, hb⟩
      · rw [hfin] at ht
        rw [ht]
        simp
      · rw [hfin] at ht
        rw [ht]
        exact invoke_count_le_one res _ _ d hb
    have hex : ∃ b, r = some b ∧ w1.moveTensorsShape = some b := by
      rcases MoveTensorsShape_ok E self rt r w1 rt1 h with
        ⟨b, hb, hr, hw, _⟩ | ⟨_, blk, _, hr, hw⟩
      · subst hw
        exact ⟨b, hr, hb⟩
      · subst hw
        exact ⟨blk, hr, rfl⟩
    obtain ⟨b, hr, hw⟩ := hex
    subst hr
    refine ⟨by simp, hw, hcount, runCalls_move_replicate E b w1 rt1 hw, ?_⟩
    intro cs rs w2 rt2 hrun
    exact runCalls_move_stable E b cs w1 rt1 rs w2 rt2 hw hrun

/-- Witness for C2: over an engine whose shape method would answer
`[1, 1, 1, 1]` on a second invocation, the first call returns `[0, 0, 0]` and
three further calls return the very same block, leaving wrapper and runtime
untouched. -/
theorem shape_accessors_cached_once_witness :
    ∃ w1 rt1,
      LudiiGameWrapper.StateTensorsShape driftingEngine
        (LudiiGameWrapper.Construct driftingEngine 0 "game.lud" (Runtime.init 0)).1
        (LudiiGameWrapper.Construct driftingEngine 0 "game.lud" (Runtime.init 0)).2 =
        Except.ok (some (IntBlock.mk 1 [0, 0, 0]), w1, rt1) ∧
      runCalls driftingEngine [Accessor.state, Accessor.state, Accessor.state] w1 rt1 =
        Except.ok ([some (IntBlock.mk 1 [0, 0, 0]), some (IntBlock.mk 1 [0, 0, 0]),
          some (IntBlock.mk 1 [0, 0, 0])], w1, rt1) :=
  ⟨_, _, rfl,
   ((shape_accessors_cached_once driftingEngine
      (LudiiGameWrapper.Construct driftingEngine 0 "game.lud" (Runtime.init 0)).1
      (LudiiGameWrapper.Construct driftingEngine 0 "game.lud" (Runtime.init 0)).2
      _ _ _).1 rfl).2.2.2.1 3⟩

/-! ## The constructors -/

/-- One iteration of the option loop: a string is created, then stored. -/
theorem loopBody_spec (arr : jobjectArray) (i : Int) (s : String) (rt : Runtime ε) :
    (SetObjectArrayElement arr i (NewStringUTF s rt).1 (NewStringUTF s rt).2).trace =
      rt.trace ++ [Event.NewStringUTF s (rt.heap.length + 1),
        Event.SetObjectArrayElement arr i (rt.heap.length + 1)] ∧
    (SetObjectArrayElement arr i (NewStringUTF s rt).1 (NewStringUTF s rt).2).localRefs =
      rt.localRefs ++ [rt.heap.length + 1] ∧
    (SetObjectArrayElement arr i (NewStringUTF s rt).1 (NewStringUTF s rt).2).heap.length =
      rt.heap.length + 1 ∧
    (rt.pending = true →
      (SetObjectArrayElement arr i (NewStringUTF s rt).1 (NewStringUTF s rt).2).pending = true) ∧
    (SetObjectArrayElement arr i (NewStringUTF s rt).1 (NewStringUTF s rt).2).engine =
      rt.engine ∧
    (SetObjectArrayElement arr i (NewStringUTF s rt).1 (NewStringUTF s rt).2).buffers =
      rt.buffers ∧
    (SetObjectArrayElement arr i (NewStringUTF s rt).1 (NewStringUTF s rt).2).nextBuffer =
      rt.nextBuffer ∧
    (SetObjectArrayElement arr i (NewStringUTF s rt).1 (NewStringUTF s rt).2).nativeBlocks =
      rt.nativeBlocks := by
  unfold SetObjectArrayElement
  split
  · split <;> simp [NewStringUTF]
  · simp [NewStringUTF]

/-- The option loop logs only marshalling events, releases nothing, keeps every
string it creates as a local reference, and only grows the heap. -/
theorem optionsLoop_spec (arr : jobjectArray) (opts : List String) :
    ∀ (fuel : Nat) (i : Int) (rt : Runtime ε),
      ∃ d l,
        (optionsLoop arr opts fuel i rt).trace = rt.trace ++ d ∧
        (∀ e ∈ d, e.isMarshal = true) ∧
        (optionsLoop arr opts fuel i rt).localRefs = rt.localRefs ++ l ∧
        (∀ utf r, Event.NewStringUTF utf r ∈ d → r ∈ l) ∧
        rt.heap.length ≤ (optionsLoop arr opts fuel i rt).heap.length ∧
        (rt.pending = true → (optionsLoop arr opts fuel i rt).pending = true) ∧
        (optionsLoop arr opts fuel i rt).engine = rt.engine ∧
        (optionsLoop arr opts fuel i rt).buffers = rt.buffers ∧
        (optionsLoop arr opts fuel i rt).nextBuffer = rt.nextBuffer ∧
        (optionsLoop arr opts fuel i rt).nativeBlocks = rt.nativeBlocks
  | 0, i, rt => ⟨[], [], by simp [optionsLoop]⟩
  | fuel + 1, i, rt => by
    by_cases h : toSizeT i < opts.length
    · obtain ⟨b1, b2, b3, b4, b5, b6, b7, b8⟩ :=
        loopBody_spec arr i (c_str opts[toSizeT i]) rt
      obtain ⟨d, l, h1, h2, h3, h4, h5, h6, h7, h8, h9, h10⟩ :=
        optionsLoop_spec arr opts fuel (toInt32 (i + 1))
          (SetObjectArrayElement arr i (NewStringUTF (c_str opts[toSizeT i]) rt).1
            (NewStringUTF (c_str opts[toSizeT i]) rt).2)
      have hu : optionsLoop arr opts (fuel + 1) i rt =
          optionsLoop arr opts fuel (toInt32 (i + 1))
            (SetObjectArrayElement arr i (NewStringUTF (c_str opts[toSizeT i]) rt).1
              (NewStringUTF (c_str opts[toSizeT i]) rt).2) := by
        simp only [optionsLoop, dif_pos h]
      rw [hu]
      refine ⟨[Event.NewStringUTF (c_str opts[toSizeT i]) (rt.heap.length + 1),
          Event.SetObjectArrayElement arr i (rt.heap.length + 1)] ++ d,
        [rt.heap.length + 1] ++ l, ?_, ?_, ?_, ?_, ?_, ?_, ?_, ?_, ?_, ?_⟩
      · rw [h1, b1, List.append_assoc]
      · intro e he
        rcases List.mem_append.1 he with he | he
        · simp only [List.mem_cons, List.mem_singleton, List.not_mem_nil, or_false] at he
          rcases he with rfl | rfl <;> rfl
        · exact h2 e he
      · rw [h3, b2, List.append_assoc]
      · intro utf r he
        rcases List.mem_append.1 he with he | he
        · simp only [List.mem_cons, List.mem_singleton, List.not_mem_nil, or_false] at he
          rcases he with he | he
          · injection he with _ hr
            subst hr
            simp
          · cases he
        · exact List.mem_append_right _ (h4 utf r he)
      · omega
      · exact fun hp => h6 (b4 hp)
      · rw [h7, b5]
      · rw [h8, b6]
      · rw [h9, b7]
      · rw [h10, b8]
    · refine ⟨[], [], ?_⟩
      simp [optionsLoop, dif_neg h]

theorem ConstructOptions_eq (E : Engine ε) (jenv : Nat) (path : String)
    (opts : List String) (rt : Runtime ε) :
    LudiiGameWrapper.ConstructOptions E jenv path opts rt =
      ({ jenv := jenv
         ludiiGameWrapperClass := (optionsPrefix E path opts rt).1
         ludiiGameWrapperJavaObject :=
           (constructTail E (optionsPrefix E path opts rt).1 (optionsPrefix E path opts rt).2.1
             [(optionsPrefix E path opts rt).2.2.1, (optionsPrefix E path opts rt).2.2.2.1]
             (optionsMarshalled E path opts rt)).1
         stateTensorsShapeMethodID :=
           (constructTail E (optionsPrefix E path opts rt).1 (optionsPrefix E path opts rt).2.1
             [(optionsPrefix E path opts rt).2.2.1, (optionsPrefix E path opts rt).2.2.2.1]
             (optionsMarshalled E path opts rt)).2.1
         moveTensorsShapeMethodID :=
           (constructTail E (optionsPrefix E path opts rt).1 (optionsPrefix E path opts rt).2.1
             [(optionsPrefix E path opts rt).2.2.1, (optionsPrefix E path opts rt).2.2.2.1]
             (optionsMarshalled E path opts rt)).2.2.1
         stateTensorsShape := none
         moveTensorsShape := none },
       (constructTail E (optionsPrefix E path opts rt).1 (optionsPrefix E path opts rt).2.1
         [(optionsPrefix E path opts rt).2.2.1, (optionsPrefix E path opts rt).2.2.2.1]
         (optionsMarshalled E path opts rt)).2.2.2) := by
  simp only [LudiiGameWrapper.ConstructOptions, optionsMarshalled, optionsPrefix,
    constructTail]

theorem Construct_eq (E : Engine ε) (jenv : Nat) (path : String) (rt : Runtime ε) :
    LudiiGameWrapper.Construct E jenv path rt =
      ({ jenv := jenv
         ludiiGameWrapperClass := (pathPrefix E path rt).1
         ludiiGameWrapperJavaObject :=
           (constructTail E (pathPrefix E path rt).1 (pathPrefix E path rt).2.1
             [(pathPrefix E path rt).2.2.1] (pathPrefix E path rt).2.2.2).1
         stateTensorsShapeMethodID :=
           (constructTail E (pathPrefix E path rt).1 (pathPrefix E path rt).2.1
             [(pathPrefix E path rt).2.2.1] (pathPrefix E path rt).2.2.2).2.1
         moveTensorsShapeMethodID :=
           (constructTail E (pathPrefix E path rt).1 (pathPrefix E path rt).2.1
             [(pathPrefix E path rt).2.2.1] (pathPrefix E path rt).2.2.2).2.2.1
         stateTensorsShape := none
         moveTensorsShape := none },
       (constructTail E (pathPrefix E path rt).1 (pathPrefix E path rt).2.1
         [(pathPrefix E path rt).2.2.1] (pathPrefix E path rt).2.2.2).2.2.2) := by
  simp only [LudiiGameWrapper.Construct, pathPrefix, constructTail]

/-- The foreign construction and the two shape method lookups. -/
theorem constructTail_spec (E : Engine ε) (clazz : jclass) (ctor : jmethodID)
    (args : List jobject) (rt : Runtime ε) :
    (constructTail E clazz ctor args rt).2.2.2.trace = rt.trace ++
      [Event.NewObject clazz ctor args rt.heap (constructTail E clazz ctor args rt).1,
       Event.GetMethodID clazz "stateTensorsShape" "()[I"
         (constructTail E clazz ctor args rt).2.1,
       Event.GetMethodID clazz "moveTensorsShape" "()[I"
         (constructTail E clazz ctor args rt).2.2.1] ∧
    (constructTail E clazz ctor args rt).2.2.2.localRefs = rt.localRefs ++
      (if (constructTail E clazz ctor args rt).1 = 0 then []
       else [(constructTail E clazz ctor args rt).1]) ∧
    (constructTail E clazz ctor args rt).1 =
      (if (E.construct clazz ctor args rt.heap rt.engine).threw then 0
       else rt.heap.length + 1) ∧
    rt.heap.length < (constructTail E clazz ctor args rt).2.2.2.heap.length ∧
    ((rt.pending = true ∨ (constructTail E clazz ctor args rt).1 = 0 ∨
        (constructTail E clazz ctor args rt).2.1 = 0 ∨
        (constructTail E clazz ctor args rt).2.2.1 = 0) →
      (constructTail E clazz ctor args rt).2.2.2.pending = true) ∧
    (constructTail E clazz ctor args rt).2.2.2.buffers = rt.buffers ∧
    (constructTail E clazz ctor args rt).2.2.2.nextBuffer = rt.nextBuffer ∧
    (constructTail E clazz ctor args rt).2.2.2.nativeBlocks = rt.nativeBlocks := by
  refine ⟨?_, ?_, ?_, ?_, ?_, ?_, ?_, ?_⟩
  · simp [constructTail, NewObject, GetMethodID]
  · simp [constructTail, NewObject, GetMethodID]
  · simp [constructTail, NewObject, GetMethodID]
  · simp [constructTail, NewObject, GetMethodID]
  · simp only [constructTail, NewObject, GetMethodID]
    by_cases ht : (E.construct clazz ctor args rt.heap rt.engine).threw = true
    · simp [ht]
    · simp [ht]
      tauto
  · simp [constructTail, NewObject, GetMethodID]
  · simp [constructTail, NewObject, GetMethodID]
  · simp [constructTail, NewObject, GetMethodID]

/-- The calls of the first constructor before `NewObject`. -/
theorem pathPrefix_spec (E : Engine ε) (path : String) (rt : Runtime ε) :
    (pathPrefix E path rt).2.2.1 = rt.heap.length + 1 ∧
    (pathPrefix E path rt).2.2.2.trace = rt.trace ++
      [Event.FindClass "utils/LudiiGameWrapper" (pathPrefix E path rt).1,
       Event.GetMethodID (pathPrefix E path rt).1 "<init>" "(Ljava/lang/String;)V"
         (pathPrefix E path rt).2.1,
       Event.NewStringUTF (c_str path) (rt.heap.length + 1)] ∧
    (pathPrefix E path rt).2.2.2.heap = rt.heap ++ [JObj.string (c_str path)] ∧
    (pathPrefix E path rt).2.2.2.localRefs = rt.localRefs ++ [rt.heap.length + 1] ∧
    (pathPrefix E path rt).2.2.2.buffers = rt.buffers ∧
    (pathPrefix E path rt).2.2.2.nextBuffer = rt.nextBuffer ∧
    (pathPrefix E path rt).2.2.2.nativeBlocks = rt.nativeBlocks ∧
    ((rt.pending = true ∨ (pathPrefix E path rt).1 = 0 ∨ (pathPrefix E path rt).2.1 = 0) →
      (pathPrefix E path rt).2.2.2.pending = true) := by
  simp [pathPrefix, FindClass, GetMethodID, NewStringUTF]
  tauto

/-- The calls of the second constructor before its loop. -/
theorem optionsPrefix_spec (E : Engine ε) (path : String) (opts : List String)
    (rt : Runtime ε) :
    (optionsPrefix E path opts rt).1 = E.findClass "utils/LudiiGameWrapper" rt.engine ∧
    (optionsPrefix E path opts rt).2.1 =
      E.getMethodID (E.findClass "utils/LudiiGameWrapper" rt.engine) "<init>"
        "(Ljava/lang/String;[Ljava/lang/String;)V" rt.engine ∧
    (optionsPrefix E path opts rt).2.2.1 = rt.heap.length + 1 ∧
    (optionsPrefix E path opts rt).2.2.2.1 =
      (if toInt32 opts.length < 0 then 0 else rt.heap.length + 2) ∧
    (optionsPrefix E path opts rt).2.2.2.2.trace = rt.trace ++
      [Event.FindClass "utils/LudiiGameWrapper" (optionsPrefix E path opts rt).1,
       Event.GetMethodID (optionsPrefix E path opts rt).1 "<init>"
         "(Ljava/lang/String;[Ljava/lang/String;)V" (optionsPrefix E path opts rt).2.1,
       Event.NewStringUTF (c_str path) (rt.heap.length + 1),
       Event.FindClass "java/lang/String" javaLangString,
       Event.NewObjectArray (toInt32 opts.length) javaLangString 0
         (optionsPrefix E path opts rt).2.2.2.1] ∧
    (optionsPrefix E path opts rt).2.2.2.2.heap = rt.heap ++ JObj.string (c_str path) ::
      (if toInt32 opts.length < 0 then []
       else [JObj.objectArray javaLangString (List.replicate (toInt32 opts.length).toNat 0)]) ∧
    (optionsPrefix E path opts rt).2.2.2.2.localRefs = rt.localRefs ++ (rt.heap.length + 1) ::
      (if toInt32 opts.length < 0 then [] else [rt.heap.length + 2]) ∧
    (optionsPrefix E path opts rt).2.2.2.2.engine = rt.engine ∧
    (optionsPrefix E path opts rt).2.2.2.2.buffers = rt.buffers ∧
    (optionsPrefix E path opts rt).2.2.2.2.nextBuffer = rt.nextBuffer ∧
    (optionsPrefix E path opts rt).2.2.2.2.nativeBlocks = rt.nativeBlocks ∧
    ((rt.pending = true ∨ (optionsPrefix E path opts rt).1 = 0 ∨
        (optionsPrefix E path opts rt).2.1 = 0 ∨ (optionsPrefix E path opts rt).2.2.2.1 = 0) →
      (optionsPrefix E path opts rt).2.2.2.2.pending = true) := by
  by_cases hneg : toInt32 opts.length < 0
  · simp [optionsPrefix, FindClass, GetMethodID, NewStringUTF, NewObjectArray, hneg,
      javaLangString]
  · simp [optionsPrefix, FindClass, GetMethodID, NewStringUTF, NewObjectArray, hneg,
      javaLangString]
    tauto


/-- The runtime after the option loop, relative to the runtime before the
constructor. -/
theorem optionsMarshalled_spec (E : Engine ε) (path : String) (opts : List String)
    (rt : Runtime ε) :
    ∃ d l,
      (optionsMarshalled E path opts rt).trace = rt.trace ++
        ([Event.FindClass "utils/LudiiGameWrapper" (optionsPrefix E path opts rt).1,
          Event.GetMethodID (optionsPrefix E path opts rt).1 "<init>"
            "(Ljava/lang/String;[Ljava/lang/String;)V" (optionsPrefix E path opts rt).2.1,
          Event.NewStringUTF (c_str path) (rt.heap.length + 1),
          Event.FindClass "java/lang/String" javaLangString,
          Event.NewObjectArray (toInt32 opts.length) javaLangString 0
            (optionsPrefix E path opts rt).2.2.2.1] ++ d) ∧
      (∀ e ∈ d, e.isMarshal = true) ∧
      (optionsMarshalled E path opts rt).localRefs = rt.localRefs ++
        ((rt.heap.length + 1) ::
          (if toInt32 opts.length < 0 then [] else [rt.heap.length + 2]) ++ l) ∧
      (∀ utf r, Event.NewStringUTF utf r ∈ d → r ∈ l) ∧
      rt.heap.length < (optionsMarshalled E path opts rt).heap.length ∧
      ((rt.pending = true ∨ (optionsPrefix E path opts rt).1 = 0 ∨
          (optionsPrefix E path opts rt).2.1 = 0 ∨
          (optionsPrefix E path opts rt).2.2.2.1 = 0) →
        (optionsMarshalled E path opts rt).pending = true) ∧
      (optionsMarshalled E path opts rt).engine = rt.engine ∧
      (optionsMarshalled E path opts rt).buffers = rt.buffers ∧
      (optionsMarshalled E path opts rt).nextBuffer = rt.nextBuffer ∧
      (optionsMarshalled E path opts rt).nativeBlocks = rt.nativeBlocks := by
  obtain ⟨_, _, _, _, p5, p6, p7, p8, p9, p10, p11, p12⟩ := optionsPrefix_spec E path opts rt
  obtain ⟨d, l, h1, h2, h3, h4, h5, h6, h7, h8, h9, h10⟩ :=
    optionsLoop_spec (optionsPrefix E path opts rt).2.2.2.1 opts opts.length 0
      (optionsPrefix E path opts rt).2.2.2.2
  refine ⟨d, l, ?_, h2, ?_, h4, ?_, ?_, ?_, ?_, ?_, ?_⟩
  · unfold optionsMarshalled
    rw [h1, p5, List.append_assoc]
  · unfold optionsMarshalled
    rw [h3, p7]
    simp
  · unfold optionsMarshalled
    have : rt.heap.length < (optionsPrefix E path opts rt).2.2.2.2.heap.length := by
      rw [p6]
      simp
    omega
  · intro hp
    exact h6 (p12 hp)
  · unfold optionsMarshalled
    rw [h7, p8]
  · unfold optionsMarshalled
    rw [h8, p9]
  · unfold optionsMarshalled
    rw [h9, p10]
  · unfold optionsMarshalled
    rw [h10, p11]

/-- The log of the first constructor, in order. -/
theorem Construct_trace (E : Engine ε) (jenv : Nat) (path : String) (rt : Runtime ε) :
    (LudiiGameWrapper.Construct E jenv path rt).2.trace = rt.trace ++
      [Event.FindClass "utils/LudiiGameWrapper"
         (LudiiGameWrapper.Construct E jenv path rt).1.ludiiGameWrapperClass,
       Event.GetMethodID (LudiiGameWrapper.Construct E jenv path rt).1.ludiiGameWrapperClass
         "<init>" "(Ljava/lang/String;)V" (pathPrefix E path rt).2.1,
       Event.NewStringUTF (c_str path) (rt.heap.length + 1),
       Event.NewObject (LudiiGameWrapper.Construct E jenv path rt).1.ludiiGameWrapperClass
         (pathPrefix E path rt).2.1 [rt.heap.length + 1]
         (rt.heap ++ [JObj.string (c_str path)])
         (LudiiGameWrapper.Construct E jenv path rt).1.ludiiGameWrapperJavaObject,
       Event.GetMethodID (LudiiGameWrapper.Construct E jenv path rt).1.ludiiGameWrapperClass
         "stateTensorsShape" "()[I"
         (LudiiGameWrapper.Construct E jenv path rt).1.stateTensorsShapeMethodID,
       Event.GetMethodID (LudiiGameWrapper.Construct E jenv path rt).1.ludiiGameWrapperClass
         "moveTensorsShape" "()[I"
         (LudiiGameWrapper.Construct E jenv path rt).1.moveTensorsShapeMethodID] := by
  obtain ⟨p1, p2, p3, _⟩ := pathPrefix_spec E path rt
  obtain ⟨t1, _⟩ := constructTail_spec E (pathPrefix E path rt).1 (pathPrefix E path rt).2.1
    [(pathPrefix E path rt).2.2.1] (pathPrefix E path rt).2.2.2
  rw [Construct_eq]
  simp only []
  rw [t1, p2, p3, p1, List.append_assoc]
  rfl

theorem Construct_newEvents (E : Engine ε) (jenv : Nat) (path : String) (rt : Runtime ε) :
    newEvents rt (LudiiGameWrapper.Construct E jenv path rt).2 =
      [Event.FindClass "utils/LudiiGameWrapper"
         (LudiiGameWrapper.Construct E jenv path rt).1.ludiiGameWrapperClass,
       Event.GetMethodID (LudiiGameWrapper.Construct E jenv path rt).1.ludiiGameWrapperClass
         "<init>" "(Ljava/lang/String;)V" (pathPrefix E path rt).2.1,
       Event.NewStringUTF (c_str path) (rt.heap.length + 1),
       Event.NewObject (LudiiGameWrapper.Construct E jenv path rt).1.ludiiGameWrapperClass
         (pathPrefix E path rt).2.1 [rt.heap.length + 1]
         (rt.heap ++ [JObj.string (c_str path)])
         (LudiiGameWrapper.Construct E jenv path rt).1.ludiiGameWrapperJavaObject,
       Event.GetMethodID (LudiiGameWrapper.Construct E jenv path rt).1.ludiiGameWrapperClass
         "stateTensorsShape" "()[I"
         (LudiiGameWrapper.Construct E jenv path rt).1.stateTensorsShapeMethodID,
       Event.GetMethodID (LudiiGameWrapper.Construct E jenv path rt).1.ludiiGameWrapperClass
         "moveTensorsShape" "()[I"
         (LudiiGameWrapper.Construct E jenv path rt).1.moveTensorsShapeMethodID] :=
  newEvents_append rt _ _ (Construct_trace E jenv path rt)

/-- The log of the second constructor: five calls, the marshalling loop, three
calls. -/
theorem ConstructOptions_trace (E : Engine ε) (jenv : Nat) (path : String)
    (opts : List String) (rt : Runtime ε) :
    ∃ d l, (∀ e ∈ d, e.isMarshal = true) ∧
    (∀ utf r, Event.NewStringUTF utf r ∈ d → r ∈ l) ∧
    (optionsMarshalled E path opts rt).localRefs = rt.localRefs ++
        ((rt.heap.length + 1) ::
          (if toInt32 opts.length < 0 then [] else [rt.heap.length + 2]) ++ l) ∧
    (LudiiGameWrapper.ConstructOptions E jenv path opts rt).2.trace = rt.trace ++
      ([Event.FindClass "utils/LudiiGameWrapper"
         (LudiiGameWrapper.ConstructOptions E jenv path opts rt).1.ludiiGameWrapperClass,
       Event.GetMethodID
         (LudiiGameWrapper.ConstructOptions E jenv path opts rt).1.ludiiGameWrapperClass
         "<init>" "(Ljava/lang/String;[Ljava/lang/String;)V" (optionsPrefix E path opts rt).2.1,
       Event.NewStringUTF (c_str path) (rt.heap.length + 1),
       Event.FindClass "java/lang/String" javaLangString,
       Event.NewObjectArray (toInt32 opts.length) javaLangString 0
         (optionsPrefix E path opts rt).2.2.2.1] ++ d ++
      [Event.NewObject
         (LudiiGameWrapper.ConstructOptions E jenv path opts rt).1.ludiiGameWrapperClass
         (optionsPrefix E path opts rt).2.1
         [rt.heap.length + 1, (optionsPrefix E path opts rt).2.2.2.1]
         (optionsMarshalled E path opts rt).heap
         (LudiiGameWrapper.ConstructOptions E jenv path opts rt).1.ludiiGameWrapperJavaObject,
       Event.GetMethodID
         (LudiiGameWrapper.ConstructOptions E jenv path opts rt).1.ludiiGameWrapperClass
         "stateTensorsShape" "()[I"
         (LudiiGameWrapper.ConstructOptions E jenv path opts rt).1.stateTensorsShapeMethodID,
       Event.GetMethodID
         (LudiiGameWrapper.ConstructOptions E jenv path opts rt).1.ludiiGameWrapperClass
         "moveTensorsShape" "()[I"
         (LudiiGameWrapper.ConstructOptions E jenv path opts rt).1.moveTensorsShapeMethodID]) := by
  obtain ⟨_, _, p3, _⟩ := optionsPrefix_spec E path opts rt
  obtain ⟨d, l, m1, m2, m3, m4, _⟩ := optionsMarshalled_spec E path opts rt
  obtain ⟨t1, _⟩ := constructTail_spec E (optionsPrefix E path opts rt).1
    (optionsPrefix E path opts rt).2.1
    [(optionsPrefix E path opts rt).2.2.1, (optionsPrefix E path opts rt).2.2.2.1]
    (optionsMarshalled E path opts rt)
  refine ⟨d, l, m2, m4, m3, ?_⟩
  rw [ConstructOptions_eq]
  simp only []
  rw [t1, m1, p3, List.append_assoc, List.append_assoc]

theorem ConstructOptions_newEvents (E : Engine ε) (jenv : Nat) (path : String)
    (opts : List String) (rt : Runtime ε) :
    ∃ d, (∀ e ∈ d, e.isMarshal = true) ∧
    newEvents rt (LudiiGameWrapper.ConstructOptions E jenv path opts rt).2 =
      [Event.FindClass "utils/LudiiGameWrapper"
         (LudiiGameWrapper.ConstructOptions E jenv path opts rt).1.ludiiGameWrapperClass,
       Event.GetMethodID
         (LudiiGameWrapper.ConstructOptions E jenv path opts rt).1.ludiiGameWrapperClass
         "<init>" "(Ljava/lang/String;[Ljava/lang/String;)V" (optionsPrefix E path opts rt).2.1,
       Event.NewStringUTF (c_str path) (rt.heap.length + 1),
       Event.FindClass "java/lang/String" javaLangString,
       Event.NewObjectArray (toInt32 opts.length) javaLangString 0
         (optionsPrefix E path opts rt).2.2.2.1] ++ d ++
      [Event.NewObject
         (LudiiGameWrapper.ConstructOptions E jenv path opts rt).1.ludiiGameWrapperClass
         (optionsPrefix E path opts rt).2.1
         [rt.heap.length + 1, (optionsPrefix E path opts rt).2.2.2.1]
         (optionsMarshalled E path opts rt).heap
         (LudiiGameWrapper.ConstructOptions E jenv path opts rt).1.ludiiGameWrapperJavaObject,
       Event.GetMethodID
         (LudiiGameWrapper.ConstructOptions E jenv path opts rt).1.ludiiGameWrapperClass
         "stateTensorsShape" "()[I"
         (LudiiGameWrapper.ConstructOptions E jenv path opts rt).1.stateTensorsShapeMethodID,
       Event.GetMethodID
         (LudiiGameWrapper.ConstructOptions E jenv path opts rt).1.ludiiGameWrapperClass
         "moveTensorsShape" "()[I"
         (LudiiGameWrapper.ConstructOptions E jenv path opts rt).1.moveTensorsShapeMethodID] := by
  obtain ⟨d, l, h1, _, _, h4⟩ := ConstructOptions_trace E jenv path opts rt
  exact ⟨d, h1, newEvents_append rt _ _ h4⟩

/-- What both constructors leave behind besides the log, first constructor. -/
theorem Construct_frame (E : Engine ε) (jenv : Nat) (path : String) (rt : Runtime ε) :
    (LudiiGameWrapper.Construct E jenv path rt).1.jenv = jenv ∧
    (LudiiGameWrapper.Construct E jenv path rt).1.stateTensorsShape = none ∧
    (LudiiGameWrapper.Construct E jenv path rt).1.moveTensorsShape = none ∧
    (LudiiGameWrapper.Construct E jenv path rt).2.localRefs = rt.localRefs ++
      ((rt.heap.length + 1) ::
        (if (LudiiGameWrapper.Construct E jenv path rt).1.ludiiGameWrapperJavaObject = 0
         then []
         else [(LudiiGameWrapper.Construct E jenv path rt).1.ludiiGameWrapperJavaObject])) ∧
    ((LudiiGameWrapper.Construct E jenv path rt).1.ludiiGameWrapperJavaObject ≠ 0 →
      rt.heap.length < (LudiiGameWrapper.Construct E jenv path rt).1.ludiiGameWrapperJavaObject ∧
      (LudiiGameWrapper.Construct E jenv path rt).1.ludiiGameWrapperJavaObject ≤
        (LudiiGameWrapper.Construct E jenv path rt).2.heap.length) ∧
    rt.heap.length < (LudiiGameWrapper.Construct E jenv path rt).2.heap.length ∧
    ((rt.pending = true ∨
        (LudiiGameWrapper.Construct E jenv path rt).1.ludiiGameWrapperClass = 0 ∨
        (pathPrefix E path rt).2.1 = 0 ∨
        (LudiiGameWrapper.Construct E jenv path rt).1.ludiiGameWrapperJavaObject = 0 ∨
        (LudiiGameWrapper.Construct E jenv path rt).1.stateTensorsShapeMethodID = 0 ∨
        (LudiiGameWrapper.Construct E jenv path rt).1.moveTensorsShapeMethodID = 0) →
      (LudiiGameWrapper.Construct E jenv path rt).2.pending = true) ∧
    (LudiiGameWrapper.Construct E jenv path rt).2.buffers = rt.buffers := by
  obtain ⟨p1, _, p3, p4, p5, _, _, p8⟩ := pathPrefix_spec E path rt
  obtain ⟨_, t2, t3, t4, t5, t6, _, _⟩ := constructTail_spec E (pathPrefix E path rt).1
    (pathPrefix E path rt).2.1 [(pathPrefix E path rt).2.2.1] (pathPrefix E path rt).2.2.2
  have hlen : (pathPrefix E path rt).2.2.2.heap.length = rt.heap.length + 1 := by
    rw [p3]
    simp
  rw [Construct_eq]
  simp only []
  refine ⟨trivial, trivial, trivial, ?_, ?_, ?_, ?_, ?_⟩
  · rw [t2, p4, List.append_assoc]
    rfl
  · intro hne
    rw [t3] at hne ⊢
    split at hne
    · exact absurd rfl hne
    · rename_i hthrew
      rw [if_neg hthrew]
      refine ⟨Nat.lt_succ_of_le ?_, ?_⟩
      · omega
      · exact t4
  · omega
  · intro h
    have hP := p8
    tauto
  · rw [t6, p5]

/-- What the second constructor leaves behind besides the log. -/
theorem ConstructOptions_frame (E : Engine ε) (jenv : Nat) (path : String)
    (opts : List String) (rt : Runtime ε) :
    (LudiiGameWrapper.ConstructOptions E jenv path opts rt).1.jenv = jenv ∧
    (LudiiGameWrapper.ConstructOptions E jenv path opts rt).1.stateTensorsShape = none ∧
    (LudiiGameWrapper.ConstructOptions E jenv path opts rt).1.moveTensorsShape = none ∧
    (LudiiGameWrapper.ConstructOptions E jenv path opts rt).2.localRefs =
      (optionsMarshalled E path opts rt).localRefs ++
        (if (LudiiGameWrapper.ConstructOptions E jenv path opts rt).1.ludiiGameWrapperJavaObject
            = 0 then []
         else [(LudiiGameWrapper.ConstructOptions E jenv path opts
                 rt).1.ludiiGameWrapperJavaObject]) ∧
    ((LudiiGameWrapper.ConstructOptions E jenv path opts rt).1.ludiiGameWrapperJavaObject ≠ 0 →
      rt.heap.length <
        (LudiiGameWrapper.ConstructOptions E jenv path opts rt).1.ludiiGameWrapperJavaObject ∧
      (LudiiGameWrapper.ConstructOptions E jenv path opts rt).1.ludiiGameWrapperJavaObject ≤
        (LudiiGameWrapper.ConstructOptions E jenv path opts rt).2.heap.length) ∧
    rt.heap.length < (LudiiGameWrapper.ConstructOptions E jenv path opts rt).2.heap.length ∧
    ((rt.pending = true ∨
        (LudiiGameWrapper.ConstructOptions E jenv path opts rt).1.ludiiGameWrapperClass = 0 ∨
        (optionsPrefix E path opts rt).2.1 = 0 ∨
        (optionsPrefix E path opts rt).2.2.2.1 = 0 ∨
        (LudiiGameWrapper.ConstructOptions E jenv path opts rt).1.ludiiGameWrapperJavaObject
          = 0 ∨
        (LudiiGameWrapper.ConstructOptions E jenv path opts rt).1.stateTensorsShapeMethodID
          = 0 ∨
        (LudiiGameWrapper.ConstructOptions E jenv path opts rt).1.moveTensorsShapeMethodID
          = 0) →
      (LudiiGameWrapper.ConstructOptions E jenv path opts rt).2.pending = true) ∧
    (LudiiGameWrapper.ConstructOptions E jenv path opts rt).2.buffers = rt.buffers := by
  obtain ⟨d, l, _, _, _, _, m5, m6, _, m8, _, _⟩ := optionsMarshalled_spec E path opts rt
  obtain ⟨_, t2, t3, t4, t5, t6, _, _⟩ := constructTail_spec E (optionsPrefix E path opts rt).1
    (optionsPrefix E path opts rt).2.1
    [(optionsPrefix E path opts rt).2.2.1, (optionsPrefix E path opts rt).2.2.2.1]
    (optionsMarshalled E path opts rt)
  rw [ConstructOptions_eq]
  simp only []
  refine ⟨trivial, trivial, trivial, t2, ?_, ?_, ?_, ?_⟩
  · intro hne
    rw [t3] at hne ⊢
    split at hne
    · exact absurd rfl hne
    · rename_i hthrew
      rw [if_neg hthrew]
      refine ⟨Nat.lt_succ_of_le ?_, ?_⟩
      · omega
      · exact t4
  · omega
  · intro h
    have hM := m6
    tauto
  · rw [t6, m8]

theorem filter_marshal_nil (p : Event → Bool) (d : List Event)
    (hp : ∀ e, e.isMarshal = true → p e = false) (hd : ∀ e ∈ d, e.isMarshal = true) :
    d.filter p = [] := by
  rw [List.filter_eq_nil_iff]
  intro e he
  simp [hp e (hd e he)]

/-- C9: both constructors look the class `utils/LudiiGameWrapper` up, resolve
on it the identifiers of `stateTensorsShape` and `moveTensorsShape` with
signature `()[I`, store them in the wrapper and invoke no method; an accessor
call, returning or not, makes no class, constructor or method lookup, and on
an unpopulated cache it makes exactly one method invocation, on the wrapper's
counterpart object with the identifier stored for that accessor. -/
theorem shape_methods_resolved_up_front (E : Engine ε) (jenv : Nat) (path : String)
    (opts : List String) (rt : Runtime ε) (self : LudiiGameWrapper) :
    (Event.FindClass "utils/LudiiGameWrapper"
        (LudiiGameWrapper.Construct E jenv path rt).1.ludiiGameWrapperClass ∈
        newEvents rt (LudiiGameWrapper.Construct E jenv path rt).2 ∧
      Event.GetMethodID (LudiiGameWrapper.Construct E jenv path rt).1.ludiiGameWrapperClass
        "stateTensorsShape" "()[I"
        (LudiiGameWrapper.Construct E jenv path rt).1.stateTensorsShapeMethodID ∈
        newEvents rt (LudiiGameWrapper.Construct E jenv path rt).2 ∧
      Event.GetMethodID (LudiiGameWrapper.Construct E jenv path rt).1.ludiiGameWrapperClass
        "moveTensorsShape" "()[I"
        (LudiiGameWrapper.Construct E jenv path rt).1.moveTensorsShapeMethodID ∈
        newEvents rt (LudiiGameWrapper.Construct E jenv path rt).2 ∧
      (newEvents rt (LudiiGameWrapper.Construct E jenv path rt).2).filter Event.isInvoke
        = []) ∧
    (Event.FindClass "utils/LudiiGameWrapper"
        (LudiiGameWrapper.ConstructOptions E jenv path opts rt).1.ludiiGameWrapperClass ∈
        newEvents rt (LudiiGameWrapper.ConstructOptions E jenv path opts rt).2 ∧
      Event.GetMethodID
        (LudiiGameWrapper.ConstructOptions E jenv path opts rt).1.ludiiGameWrapperClass
        "stateTensorsShape" "()[I"
        (LudiiGameWrapper.ConstructOptions E jenv path opts rt).1.stateTensorsShapeMethodID ∈
        newEvents rt (LudiiGameWrapper.ConstructOptions E jenv path opts rt).2 ∧
      Event.GetMethodID
        (LudiiGameWrapper.ConstructOptions E jenv path opts rt).1.ludiiGameWrapperClass
        "moveTensorsShape" "()[I"
        (LudiiGameWrapper.ConstructOptions E jenv path opts rt).1.moveTensorsShapeMethodID ∈
        newEvents rt (LudiiGameWrapper.ConstructOptions E jenv path opts rt).2 ∧
      (newEvents rt (LudiiGameWrapper.ConstructOptions E jenv path opts rt).2).filter
        Event.isInvoke = []) ∧
    ((newEvents rt (finalRuntime (LudiiGameWrapper.StateTensorsShape E self rt))).filter
        Event.isLookup = [] ∧
      (self.stateTensorsShape = none → ∃ res,
        (newEvents rt (finalRuntime (LudiiGameWrapper.StateTensorsShape E self rt))).filter
          Event.isInvoke =
          [Event.CallObjectMethod self.ludiiGameWrapperJavaObject
            self.stateTensorsShapeMethodID res])) ∧
    ((newEvents rt (finalRuntime (LudiiGameWrapper.MoveTensorsShape E self rt))).filter
        Event.isLookup = [] ∧
      (self.moveTensorsShape = none → ∃ res,
        (newEvents rt (finalRuntime (LudiiGameWrapper.MoveTensorsShape E self rt))).filter
          Event.isInvoke =
          [Event.CallObjectMethod self.ludiiGameWrapperJavaObject
            self.moveTensorsShapeMethodID res])) := by
  have hbuf : ∀ (p : Event → Bool) (d : List Event),
      (∀ e, e.isBufferAccess = true → p e = false) →
      (∀ e ∈ d, e.isBufferAccess = true) → d.filter p = [] := by
    intro p d hp hd
    rw [List.filter_eq_nil_iff]
    intro e he
    simp [hp e (hd e he)]
  have hLook : ∀ e : Event, e.isBufferAccess = true → e.isLookup = false := by
    intro e he
    cases e <;> simp_all [Event.isBufferAccess, Event.isLookup]
  have hInv : ∀ e : Event, e.isBufferAccess = true → e.isInvoke = false := by
    intro e he
    cases e <;> simp_all [Event.isBufferAccess, Event.isInvoke]
  refine ⟨?_, ?_, ?_, ?_⟩
  · rw [Construct_newEvents]
    refine ⟨by simp, by simp, by simp, ?_⟩
    simp [List.filter, Event.isInvoke]
  · obtain ⟨d, hd, hev⟩ := ConstructOptions_newEvents E jenv path opts rt
    rw [hev]
    refine ⟨by simp, by simp, by simp, ?_⟩
    rw [List.filter_append, List.filter_append,
      filter_marshal_nil _ d (by intro e he; cases e <;> simp_all [Event.isMarshal,
        Event.isInvoke]) hd]
    simp [List.filter, Event.isInvoke]
  · rcases StateTensorsShape_trace E self rt with ⟨hne, h⟩ | ⟨_, res, d, h, hb⟩
    · rw [h]
      exact ⟨rfl, fun hn => absurd hn hne⟩
    · rw [h]
      refine ⟨?_, fun _ => ⟨res, ?_⟩⟩
      · rw [List.filter_cons_of_neg (by simp [Event.isLookup])]
        exact hbuf _ d hLook hb
      · rw [List.filter_cons_of_pos (by rfl), hbuf _ d hInv hb]
  · rcases MoveTensorsShape_trace E self rt with ⟨hne, h⟩ | ⟨_, res, d, h, hb⟩
    · rw [h]
      exact ⟨rfl, fun hn => absurd hn hne⟩
    · rw [h]
      refine ⟨?_, fun _ => ⟨res, ?_⟩⟩
      · rw [List.filter_cons_of_neg (by simp [Event.isLookup])]
        exact hbuf _ d hLook hb
      · rw [List.filter_cons_of_pos (by rfl), hbuf _ d hInv hb]

/-- Witness for C9: the first `StateTensorsShape` call on a wrapper constructed
over the stub engine makes exactly one invocation, on object 2 with the
identifier 3 resolved at construction. -/
theorem shape_methods_resolved_up_front_witness :
    (LudiiGameWrapper.Construct stubEngine 0 "game.lud"
      (Runtime.init ())).1.stateTensorsShape = none ∧
    ∃ res,
      (newEvents (LudiiGameWrapper.Construct stubEngine 0 "game.lud" (Runtime.init ())).2
        (finalRuntime (LudiiGameWrapper.StateTensorsShape stubEngine
          (LudiiGameWrapper.Construct stubEngine 0 "game.lud" (Runtime.init ())).1
          (LudiiGameWrapper.Construct stubEngine 0 "game.lud" (Runtime.init ())).2))).filter
        Event.isInvoke = [Event.CallObjectMethod 2 3 res] :=
  ⟨by decide,
   (shape_methods_resolved_up_front stubEngine 0 "game.lud" []
      (LudiiGameWrapper.Construct stubEngine 0 "game.lud" (Runtime.init ())).2
      (LudiiGameWrapper.Construct stubEngine 0 "game.lud" (Runtime.init ())).1).2.2.1.2
     (by decide)⟩

theorem newEvents_trans (rt rt1 rt2 : Runtime ε) (d1 d2 : List Event)
    (h1 : rt1.trace = rt.trace ++ d1) (h2 : rt2.trace = rt1.trace ++ d2) :
    newEvents rt rt2 = d1 ++ d2 := by
  apply newEvents_append
  rw [h2, h1, List.append_assoc]

/-- The first constructor makes exactly one `NewObject` call and stores its
result. -/
theorem Construct_newObject (E : Engine ε) (jenv : Nat) (path : String) (rt : Runtime ε) :
    ∃ d, (LudiiGameWrapper.Construct E jenv path rt).2.trace = rt.trace ++ d ∧
      ∃ c m a h, d.filter Event.isNewObject =
        [Event.NewObject c m a h
          (LudiiGameWrapper.Construct E jenv path rt).1.ludiiGameWrapperJavaObject] := by
  refine ⟨_, Construct_trace E jenv path rt,
    (LudiiGameWrapper.Construct E jenv path rt).1.ludiiGameWrapperClass,
    (pathPrefix E path rt).2.1, [rt.heap.length + 1],
    rt.heap ++ [JObj.string (c_str path)], ?_⟩
  simp only [List.filter, Event.isNewObject]

/-- The second constructor makes exactly one `NewObject` call and stores its
result. -/
theorem ConstructOptions_newObject (E : Engine ε) (jenv : Nat) (path : String)
    (opts : List String) (rt : Runtime ε) :
    ∃ d, (LudiiGameWrapper.ConstructOptions E jenv path opts rt).2.trace = rt.trace ++ d ∧
      ∃ c m a h, d.filter Event.isNewObject =
        [Event.NewObject c m a h
          (LudiiGameWrapper.ConstructOptions E jenv path opts
            rt).1.ludiiGameWrapperJavaObject] := by
  obtain ⟨d, l, h1, _, _, h4⟩ := ConstructOptions_trace E jenv path opts rt
  refine ⟨_, h4,
    (LudiiGameWrapper.ConstructOptions E jenv path opts rt).1.ludiiGameWrapperClass,
    (optionsPrefix E path opts rt).2.1,
    [rt.heap.length + 1, (optionsPrefix E path opts rt).2.2.2.1],
    (optionsMarshalled E path opts rt).heap, ?_⟩
  rw [List.filter_append, List.filter_append,
    filter_marshal_nil _ d (by intro e he; cases e <;> simp_all [Event.isMarshal,
      Event.isNewObject]) h1]
  simp only [List.filter, Event.isNewObject, List.nil_append, List.append_nil]


/-- C7: each construction, by either constructor, makes exactly one foreign
object-construction call and stores the reference it returns as the wrapper's
counterpart object.  Constructing twice from the same path (and options) makes
two such calls; when both succeed (the path is valid: neither reference is
null) the two counterpart references are different; both wrappers start with
unpopulated caches, and after a call of `StateTensorsShape` has populated the
cache of the first wrapper the caches of the second are still unpopulated, so
that its own first call makes its own invocation on its own counterpart. -/
theorem construction_creates_own_counterpart (E : Engine ε) (jenv : Nat) (path : String)
    (opts : List String) (rt : Runtime ε) :
    (∃ c m a h,
      (newEvents rt (LudiiGameWrapper.Construct E jenv path rt).2).filter Event.isNewObject =
        [Event.NewObject c m a h
          (LudiiGameWrapper.Construct E jenv path rt).1.ludiiGameWrapperJavaObject]) ∧
    (∃ c m a h,
      (newEvents rt (LudiiGameWrapper.ConstructOptions E jenv path opts rt).2).filter
          Event.isNewObject =
        [Event.NewObject c m a h
          (LudiiGameWrapper.ConstructOptions E jenv path opts
            rt).1.ludiiGameWrapperJavaObject]) ∧
    (((newEvents rt (constructTwice E jenv path rt).2.2).filter Event.isNewObject).length = 2 ∧
      ((constructTwice E jenv path rt).1.ludiiGameWrapperJavaObject ≠ 0 →
        (constructTwice E jenv path rt).2.1.ludiiGameWrapperJavaObject ≠ 0 →
        (constructTwice E jenv path rt).1.ludiiGameWrapperJavaObject ≠
          (constructTwice E jenv path rt).2.1.ludiiGameWrapperJavaObject) ∧
      (constructTwice E jenv path rt).1.stateTensorsShape = none ∧
      (constructTwice E jenv path rt).1.moveTensorsShape = none ∧
      (∀ r w rt',
        LudiiGameWrapper.StateTensorsShape E (constructTwice E jenv path rt).1
          (constructTwice E jenv path rt).2.2 = Except.ok (r, w, rt') →
        w.stateTensorsShape ≠ none ∧
        (constructTwice E jenv path rt).2.1.stateTensorsShape = none ∧
        (constructTwice E jenv path rt).2.1.moveTensorsShape = none ∧
        ∃ res d,
          newEvents rt' (finalRuntime (LudiiGameWrapper.StateTensorsShape E
            (constructTwice E jenv path rt).2.1 rt')) =
            Event.CallObjectMethod
              (constructTwice E jenv path rt).2.1.ludiiGameWrapperJavaObject
              (constructTwice E jenv path rt).2.1.stateTensorsShapeMethodID res :: d)) ∧
    (((newEvents rt (constructOptionsTwice E jenv path opts rt).2.2).filter
        Event.isNewObject).length = 2 ∧
      ((constructOptionsTwice E jenv path opts rt).1.ludiiGameWrapperJavaObject ≠ 0 →
        (constructOptionsTwice E jenv path opts rt).2.1.ludiiGameWrapperJavaObject ≠ 0 →
        (constructOptionsTwice E jenv path opts rt).1.ludiiGameWrapperJavaObject ≠
          (constructOptionsTwice E jenv path opts rt).2.1.ludiiGameWrapperJavaObject) ∧
      (constructOptionsTwice E jenv path opts rt).1.stateTensorsShape = none ∧
      (constructOptionsTwice E jenv path opts rt).1.moveTensorsShape = none ∧
      (∀ r w rt',
        LudiiGameWrapper.StateTensorsShape E (constructOptionsTwice E jenv path opts rt).1
          (constructOptionsTwice E jenv path opts rt).2.2 = Except.ok (r, w, rt') →
        w.stateTensorsShape ≠ none ∧
        (constructOptionsTwice E jenv path opts rt).2.1.stateTensorsShape = none ∧
        (constructOptionsTwice E jenv path opts rt).2.1.moveTensorsShape = none ∧
        ∃ res d,
          newEvents rt' (finalRuntime (LudiiGameWrapper.StateTensorsShape E
            (constructOptionsTwice E jenv path opts rt).2.1 rt')) =
            Event.CallObjectMethod
              (constructOptionsTwice E jenv path opts rt).2.1.ludiiGameWrapperJavaObject
              (constructOptionsTwice E jenv path opts rt).2.1.stateTensorsShapeMethodID
              res :: d)) := by
  have hpop : ∀ (a b : LudiiGameWrapper) (rtb : Runtime ε),
      a.stateTensorsShape = none → b.stateTensorsShape = none → b.moveTensorsShape = none →
      ∀ r w rt', LudiiGameWrapper.StateTensorsShape E a rtb = Except.ok (r, w, rt') →
        w.stateTensorsShape ≠ none ∧ b.stateTensorsShape = none ∧ b.moveTensorsShape = none ∧
        ∃ res d, newEvents rt' (finalRuntime (LudiiGameWrapper.StateTensorsShape E b rt')) =
          Event.CallObjectMethod b.ludiiGameWrapperJavaObject b.stateTensorsShapeMethodID
            res :: d := by
    intro a b rtb ha hb hbm r w rt' hok
    refine ⟨?_, hb, hbm, ?_⟩
    · rcases StateTensorsShape_ok E a rtb r w rt' hok with
        ⟨blk, hs, _⟩ | ⟨_, blk, _, _, hw⟩
      · rw [ha] at hs
        cases hs
      · subst hw
        simp
    · rcases StateTensorsShape_trace E b rt' with ⟨hne, _⟩ | ⟨_, res, d, h, _⟩
      · exact absurd hb hne
      · exact ⟨res, d, h⟩
  refine ⟨?_, ?_, ?_, ?_⟩
  · obtain ⟨d, hd, c, m, a, h, hf⟩ := Construct_newObject E jenv path rt
    exact ⟨c, m, a, h, by rw [newEvents_append rt _ d hd]; exact hf⟩
  · obtain ⟨d, hd, c, m, a, h, hf⟩ := ConstructOptions_newObject E jenv path opts rt
    exact ⟨c, m, a, h, by rw [newEvents_append rt _ d hd]; exact hf⟩
  · obtain ⟨d1, hd1, c1, m1, a1, h1, hf1⟩ := Construct_newObject E jenv path rt
    obtain ⟨d2, hd2, c2, m2, a2, h2, hf2⟩ := Construct_newObject E jenv path
      (LudiiGameWrapper.Construct E jenv path rt).2
    obtain ⟨_, s1, s2, _, b1, _⟩ := Construct_frame E jenv path rt
    obtain ⟨_, s3, s4, _, b2, _⟩ := Construct_frame E jenv path
      (LudiiGameWrapper.Construct E jenv path rt).2
    refine ⟨?_, ?_, s1, s2, hpop _ _ _ s1 s3 s4⟩
    · show ((newEvents rt (LudiiGameWrapper.Construct E jenv path
        (LudiiGameWrapper.Construct E jenv path rt).2).2).filter Event.isNewObject).length = 2
      rw [newEvents_trans rt _ _ d1 d2 hd1 hd2, List.filter_append, hf1, hf2]
      rfl
    · intro hne1 hne2 heq
      have k1 := (b1 hne1).2
      have k2 := (b2 hne2).1
      have heq2 : (LudiiGameWrapper.Construct E jenv path rt).1.ludiiGameWrapperJavaObject =
          (LudiiGameWrapper.Construct E jenv path
            (LudiiGameWrapper.Construct E jenv path rt).2).1.ludiiGameWrapperJavaObject := heq
      rw [← heq2] at k2
      exact absurd k1 (Nat.not_le.2 k2)
  · obtain ⟨d1, hd1, c1, m1, a1, h1, hf1⟩ := ConstructOptions_newObject E jenv path opts rt
    obtain ⟨d2, hd2, c2, m2, a2, h2, hf2⟩ := ConstructOptions_newObject E jenv path opts
      (LudiiGameWrapper.ConstructOptions E jenv path opts rt).2
    obtain ⟨_, s1, s2, _, b1, _⟩ := ConstructOptions_frame E jenv path opts rt
    obtain ⟨_, s3, s4, _, b2, _⟩ := ConstructOptions_frame E jenv path opts
      (LudiiGameWrapper.ConstructOptions E jenv path opts rt).2
    refine ⟨?_, ?_, s1, s2, hpop _ _ _ s1 s3 s4⟩
    · show ((newEvents rt (LudiiGameWrapper.ConstructOptions E jenv path opts
        (LudiiGameWrapper.ConstructOptions E jenv path opts rt).2).2).filter
          Event.isNewObject).length = 2
      rw [newEvents_trans rt _ _ d1 d2 hd1 hd2, List.filter_append, hf1, hf2]
      rfl
    · intro hne1 hne2 heq
      have k1 := (b1 hne1).2
      have k2 := (b2 hne2).1
      have heq2 : (LudiiGameWrapper.ConstructOptions E jenv path opts
            rt).1.ludiiGameWrapperJavaObject =
          (LudiiGameWrapper.ConstructOptions E jenv path opts
            (LudiiGameWrapper.ConstructOptions E jenv path opts
              rt).2).1.ludiiGameWrapperJavaObject := heq
      rw [← heq2] at k2
      exact absurd k1 (Nat.not_le.2 k2)

/-- Witness for C7: two wrappers constructed over the stub engine from the same
path hold the counterpart references 2 and 4. -/
theorem construction_creates_own_counterpart_witness :
    (constructTwice stubEngine 0 "game.lud" (Runtime.init ())).1.ludiiGameWrapperJavaObject
      ≠ 0 ∧
    (constructTwice stubEngine 0 "game.lud" (Runtime.init ())).2.1.ludiiGameWrapperJavaObject
      ≠ 0 ∧
    (constructTwice stubEngine 0 "game.lud" (Runtime.init ())).1.ludiiGameWrapperJavaObject ≠
      (constructTwice stubEngine 0 "game.lud" (Runtime.init ())).2.1.ludiiGameWrapperJavaObject :=
  ⟨by decide, by decide,
   (construction_creates_own_counterpart stubEngine 0 "game.lud" []
      (Runtime.init ())).2.2.1.2.1 (by decide) (by decide)⟩

/-- Counterexample to C5 as stated: over an engine in which the lookup of
`moveTensorsShape` fails, and over one whose Java constructor throws, both
constructors return a wrapper all the same, holding a null method identifier
(resp. a null counterpart reference), with the exception left pending. -/
theorem construction_all_or_nothing_counterexample :
    (Event.GetMethodID 7 "moveTensorsShape" "()[I" 0 ∈
        (LudiiGameWrapper.Construct noMoveMethodEngine 0 "game.lud" (Runtime.init ())).2.trace ∧
      (LudiiGameWrapper.Construct noMoveMethodEngine 0 "game.lud" (Runtime.init ())).1 =
        { jenv := 0, ludiiGameWrapperClass := 7, ludiiGameWrapperJavaObject := 2,
          stateTensorsShapeMethodID := 3, moveTensorsShapeMethodID := 0,
          stateTensorsShape := none, moveTensorsShape := none } ∧
      (LudiiGameWrapper.Construct noMoveMethodEngine 0 "game.lud"
        (Runtime.init ())).2.pending = true) ∧
    ((LudiiGameWrapper.ConstructOptions noMoveMethodEngine 0 "game.lud" ["a"]
        (Runtime.init ())).1 =
        { jenv := 0, ludiiGameWrapperClass := 7, ludiiGameWrapperJavaObject := 4,
          stateTensorsShapeMethodID := 3, moveTensorsShapeMethodID := 0,
          stateTensorsShape := none, moveTensorsShape := none }) ∧
    ((LudiiGameWrapper.Construct throwingEngine 0 "game.lud" (Runtime.init ())).1 =
        { jenv := 0, ludiiGameWrapperClass := 7, ludiiGameWrapperJavaObject := 0,
          stateTensorsShapeMethodID := 3, moveTensorsShapeMethodID := 4,
          stateTensorsShape := none, moveTensorsShape := none } ∧
      (LudiiGameWrapper.Construct throwingEngine 0 "game.lud"
        (Runtime.init ())).2.pending = true) := by
  decide

/-- C5, amended: construction has no failure path.  Whatever the class lookup,
the constructor lookup, the foreign constructor invocation and the two shape
method lookups return, each constructor returns a wrapper that stores exactly
the handles those calls returned (null where the call failed) with both caches
unpopulated; when one of them is null the runtime is left with an exception
pending. -/
theorem construction_has_no_failure_path (E : Engine ε) (jenv : Nat) (path : String)
    (opts : List String) (rt : Runtime ε) :
    (∃ ctor args heap,
      Event.FindClass "utils/LudiiGameWrapper"
        (LudiiGameWrapper.Construct E jenv path rt).1.ludiiGameWrapperClass ∈
        newEvents rt (LudiiGameWrapper.Construct E jenv path rt).2 ∧
      Event.GetMethodID (LudiiGameWrapper.Construct E jenv path rt).1.ludiiGameWrapperClass
        "<init>" "(Ljava/lang/String;)V" ctor ∈
        newEvents rt (LudiiGameWrapper.Construct E jenv path rt).2 ∧
      Event.NewObject (LudiiGameWrapper.Construct E jenv path rt).1.ludiiGameWrapperClass
        ctor args heap
        (LudiiGameWrapper.Construct E jenv path rt).1.ludiiGameWrapperJavaObject ∈
        newEvents rt (LudiiGameWrapper.Construct E jenv path rt).2 ∧
      Event.GetMethodID (LudiiGameWrapper.Construct E jenv path rt).1.ludiiGameWrapperClass
        "stateTensorsShape" "()[I"
        (LudiiGameWrapper.Construct E jenv path rt).1.stateTensorsShapeMethodID ∈
        newEvents rt (LudiiGameWrapper.Construct E jenv path rt).2 ∧
      Event.GetMethodID (LudiiGameWrapper.Construct E jenv path rt).1.ludiiGameWrapperClass
        "moveTensorsShape" "()[I"
        (LudiiGameWrapper.Construct E jenv path rt).1.moveTensorsShapeMethodID ∈
        newEvents rt (LudiiGameWrapper.Construct E jenv path rt).2 ∧
      (LudiiGameWrapper.Construct E jenv path rt).1.jenv = jenv ∧
      (LudiiGameWrapper.Construct E jenv path rt).1.stateTensorsShape = none ∧
      (LudiiGameWrapper.Construct E jenv path rt).1.moveTensorsShape = none ∧
      (((LudiiGameWrapper.Construct E jenv path rt).1.ludiiGameWrapperClass = 0 ∨ ctor = 0 ∨
          (LudiiGameWrapper.Construct E jenv path rt).1.ludiiGameWrapperJavaObject = 0 ∨
          (LudiiGameWrapper.Construct E jenv path rt).1.stateTensorsShapeMethodID = 0 ∨
          (LudiiGameWrapper.Construct E jenv path rt).1.moveTensorsShapeMethodID = 0) →
        (LudiiGameWrapper.Construct E jenv path rt).2.pending = true)) ∧
    (∃ ctor args heap,
      Event.FindClass "utils/LudiiGameWrapper"
        (LudiiGameWrapper.ConstructOptions E jenv path opts rt).1.ludiiGameWrapperClass ∈
        newEvents rt (LudiiGameWrapper.ConstructOptions E jenv path opts rt).2 ∧
      Event.GetMethodID
        (LudiiGameWrapper.ConstructOptions E jenv path opts rt).1.ludiiGameWrapperClass
        "<init>" "(Ljava/lang/String;[Ljava/lang/String;)V" ctor ∈
        newEvents rt (LudiiGameWrapper.ConstructOptions E jenv path opts rt).2 ∧
      Event.NewObject
        (LudiiGameWrapper.ConstructOptions E jenv path opts rt).1.ludiiGameWrapperClass
        ctor args heap
        (LudiiGameWrapper.ConstructOptions E jenv path opts rt).1.ludiiGameWrapperJavaObject ∈
        newEvents rt (LudiiGameWrapper.ConstructOptions E jenv path opts rt).2 ∧
      Event.GetMethodID
        (LudiiGameWrapper.ConstructOptions E jenv path opts rt).1.ludiiGameWrapperClass
        "stateTensorsShape" "()[I"
        (LudiiGameWrapper.ConstructOptions E jenv path opts rt).1.stateTensorsShapeMethodID ∈
        newEvents rt (LudiiGameWrapper.ConstructOptions E jenv path opts rt).2 ∧
      Event.GetMethodID
        (LudiiGameWrapper.ConstructOptions E jenv path opts rt).1.ludiiGameWrapperClass
        "moveTensorsShape" "()[I"
        (LudiiGameWrapper.ConstructOptions E jenv path opts rt).1.moveTensorsShapeMethodID ∈
        newEvents rt (LudiiGameWrapper.ConstructOptions E jenv path opts rt).2 ∧
      (LudiiGameWrapper.ConstructOptions E jenv path opts rt).1.jenv = jenv ∧
      (LudiiGameWrapper.ConstructOptions E jenv path opts rt).1.stateTensorsShape = none ∧
      (LudiiGameWrapper.ConstructOptions E jenv path opts rt).1.moveTensorsShape = none ∧
      (((LudiiGameWrapper.ConstructOptions E jenv path opts rt).1.ludiiGameWrapperClass = 0 ∨
          ctor = 0 ∨
          (LudiiGameWrapper.ConstructOptions E jenv path opts
            rt).1.ludiiGameWrapperJavaObject = 0 ∨
          (LudiiGameWrapper.ConstructOptions E jenv path opts
            rt).1.stateTensorsShapeMethodID = 0 ∨
          (LudiiGameWrapper.ConstructOptions E jenv path opts
            rt).1.moveTensorsShapeMethodID = 0) →
        (LudiiGameWrapper.ConstructOptions E jenv path opts rt).2.pending = true)) := by
  constructor
  · obtain ⟨f1, f2, f3, _, _, _, f7, _⟩ := Construct_frame E jenv path rt
    refine ⟨(pathPrefix E path rt).2.1, [rt.heap.length + 1],
      rt.heap ++ [JObj.string (c_str path)], ?_, ?_, ?_, ?_, ?_, f1, f2, f3, ?_⟩
    · rw [Construct_newEvents]; simp
    · rw [Construct_newEvents]; simp
    · rw [Construct_newEvents]; simp
    · rw [Construct_newEvents]; simp
    · rw [Construct_newEvents]; simp
    · intro h
      exact f7 (Or.inr h)
  · obtain ⟨f1, f2, f3, _, _, _, f7, _⟩ := ConstructOptions_frame E jenv path opts rt
    obtain ⟨d, hd, hev⟩ := ConstructOptions_newEvents E jenv path opts rt
    refine ⟨(optionsPrefix E path opts rt).2.1,
      [rt.heap.length + 1, (optionsPrefix E path opts rt).2.2.2.1],
      (optionsMarshalled E path opts rt).heap, ?_, ?_, ?_, ?_, ?_, f1, f2, f3, ?_⟩
    · rw [hev]; simp
    · rw [hev]; simp
    · rw [hev]; simp
    · rw [hev]; simp
    · rw [hev]; simp
    · intro h
      rcases h with h | h | h
      · exact f7 (by simp [h])
      · exact f7 (by simp [h])
      · exact f7 (by simp [h])

/-- Witness for C5 as amended: over the engine without a `moveTensorsShape`
method the first constructor returns with a null move identifier and the
exception pending. -/
theorem construction_has_no_failure_path_witness :
    (LudiiGameWrapper.Construct noMoveMethodEngine 0 "game.lud"
      (Runtime.init ())).1.moveTensorsShapeMethodID = 0 ∧
    (LudiiGameWrapper.Construct noMoveMethodEngine 0 "game.lud"
      (Runtime.init ())).2.pending = true := by
  refine ⟨by decide, ?_⟩
  obtain ⟨⟨ctor, args, heap, _, _, _, _, _, _, _, _, hp⟩, _⟩ :=
    construction_has_no_failure_path noMoveMethodEngine 0 "game.lud" [] (Runtime.init ())
  exact hp (Or.inr (Or.inr (Or.inr (Or.inr (by decide)))))

/-- Counterexample to C8 as stated: after constructing a wrapper with one
option over the stub engine no release call has been made, and the path string
(reference 1), the options array (2) and the option string (3) are still held
as local references, next to the counterpart object (4); after constructing
one from a path alone the path string (1) is still held, next to the
counterpart object (2). -/
theorem construction_releases_temporaries_counterexample :
    (newEvents (Runtime.init ())
      (LudiiGameWrapper.ConstructOptions stubEngine 0 "game.lud" ["a"]
        (Runtime.init ())).2).filter Event.isRelease = [] ∧
    (LudiiGameWrapper.ConstructOptions stubEngine 0 "game.lud" ["a"]
      (Runtime.init ())).2.localRefs = [1, 2, 3, 4] ∧
    deref (LudiiGameWrapper.ConstructOptions stubEngine 0 "game.lud" ["a"]
      (Runtime.init ())).2.heap 1 = some (JObj.string "game.lud") ∧
    deref (LudiiGameWrapper.ConstructOptions stubEngine 0 "game.lud" ["a"]
      (Runtime.init ())).2.heap 2 = some (JObj.objectArray javaLangString [3]) ∧
    deref (LudiiGameWrapper.ConstructOptions stubEngine 0 "game.lud" ["a"]
      (Runtime.init ())).2.heap 3 = some (JObj.string "a") ∧
    (newEvents (Runtime.init ())
      (LudiiGameWrapper.Construct stubEngine 0 "game.lud"
        (Runtime.init ())).2).filter Event.isRelease = [] ∧
    (LudiiGameWrapper.Construct stubEngine 0 "game.lud" (Runtime.init ())).2.localRefs
      = [1, 2] ∧
    deref (LudiiGameWrapper.Construct stubEngine 0 "game.lud" (Runtime.init ())).2.heap 1
      = some (JObj.string "game.lud") := by
  decide

/-- What any fetch leaves behind, whether it completes or not: the acquired
buffers are those there were before, and either the elements were acquired,
read three times and released, or the acquisition gave the null pointer and
the fetch ended in the first read through it. -/
theorem fetch_events (E : Engine ε) (obj : jobject) (mid : jmethodID) (rt : Runtime ε) :
    (fetchFinal (fetchShape E obj mid rt)).buffers = rt.buffers ∧
    ((∃ arr p, p ≠ 0 ∧
      newEvents rt (fetchFinal (fetchShape E obj mid rt)) =
        [Event.CallObjectMethod obj mid arr, Event.GetIntArrayElements arr p,
         Event.read p 0, Event.read p 1, Event.read p 2,
         Event.ReleaseIntArrayElements arr p 0]) ∨
     (∃ arr rt', fetchShape E obj mid rt = Except.error (Fault.nullPointer, rt') ∧
      newEvents rt (fetchFinal (fetchShape E obj mid rt)) =
        [Event.CallObjectMethod obj mid arr, Event.GetIntArrayElements arr 0,
         Event.read 0 0])) := by
  by_cases hex : ∃ a, deref (CallObjectMethod E obj mid rt).2.heap
      (CallObjectMethod E obj mid rt).1 = some (JObj.intArray a)
  · obtain ⟨a, ha⟩ := hex
    rw [fetchShape_final E obj mid rt a ha]
    refine ⟨rfl, Or.inl ⟨(CallObjectMethod E obj mid rt).1,
      (CallObjectMethod E obj mid rt).2.nextBuffer + 1, by omega, ?_⟩⟩
    exact newEvents_append rt _ _ (fetchedRuntime_trace E obj mid rt)
  · obtain ⟨rt', h1, h2, h3⟩ := fetchShape_notArray E obj mid rt (fun a ha => hex ⟨a, ha⟩)
    rw [h1]
    refine ⟨h2, Or.inr ⟨(CallObjectMethod E obj mid rt).1, rt', rfl, ?_⟩⟩
    apply newEvents_append
    simp only [fetchFinal]
    rw [h3, CallObjectMethod_trace, List.append_assoc]
    rfl

/-- C8, amended: in every accessor call, returning or not, an acquisition of the
elements of the foreign int array is followed, after the three reads, by
exactly one release with the same array and buffer, so that the acquired
buffers are the same after the call as before (none, if there were none); the
only call without a release is one whose acquisition gave the null pointer,
where nothing was acquired.  The constructors make no release call at all:
every temporary foreign string and array they create is still held as a local
reference when construction returns. -/
theorem foreign_memory_release (E : Engine ε) (self : LudiiGameWrapper) (jenv : Nat)
    (path : String) (opts : List String) (rt : Runtime ε) :
    ((finalRuntime (LudiiGameWrapper.StateTensorsShape E self rt)).buffers = rt.buffers ∧
      (rt.buffers = [] →
        (finalRuntime (LudiiGameWrapper.StateTensorsShape E self rt)).buffers.length = 0) ∧
      (newEvents rt (finalRuntime (LudiiGameWrapper.StateTensorsShape E self rt)) = [] ∨
       (∃ arr p, p ≠ 0 ∧
        newEvents rt (finalRuntime (LudiiGameWrapper.StateTensorsShape E self rt)) =
          [Event.CallObjectMethod self.ludiiGameWrapperJavaObject
             self.stateTensorsShapeMethodID arr,
           Event.GetIntArrayElements arr p, Event.read p 0, Event.read p 1, Event.read p 2,
           Event.ReleaseIntArrayElements arr p 0]) ∨
       (∃ arr,
        LudiiGameWrapper.StateTensorsShape E self rt =
          Except.error (Fault.nullPointer,
            finalRuntime (LudiiGameWrapper.StateTensorsShape E self rt)) ∧
        newEvents rt (finalRuntime (LudiiGameWrapper.StateTensorsShape E self rt)) =
          [Event.CallObjectMethod self.ludiiGameWrapperJavaObject
             self.stateTensorsShapeMethodID arr,
           Event.GetIntArrayElements arr 0, Event.read 0 0]))) ∧
    ((finalRuntime (LudiiGameWrapper.MoveTensorsShape E self rt)).buffers = rt.buffers ∧
      (rt.buffers = [] →
        (finalRuntime (LudiiGameWrapper.MoveTensorsShape E self rt)).buffers.length = 0) ∧
      (newEvents rt (finalRuntime (LudiiGameWrapper.MoveTensorsShape E self rt)) = [] ∨
       (∃ arr p, p ≠ 0 ∧
        newEvents rt (finalRuntime (LudiiGameWrapper.MoveTensorsShape E self rt)) =
          [Event.CallObjectMethod self.ludiiGameWrapperJavaObject
             self.moveTensorsShapeMethodID arr,
           Event.GetIntArrayElements arr p, Event.read p 0, Event.read p 1, Event.read p 2,
           Event.ReleaseIntArrayElements arr p 0]) ∨
       (∃ arr,
        LudiiGameWrapper.MoveTensorsShape E self rt =
          Except.error (Fault.nullPointer,
            finalRuntime (LudiiGameWrapper.MoveTensorsShape E self rt)) ∧
        newEvents rt (finalRuntime (LudiiGameWrapper.MoveTensorsShape E self rt)) =
          [Event.CallObjectMethod self.ludiiGameWrapperJavaObject
             self.moveTensorsShapeMethodID arr,
           Event.GetIntArrayElements arr 0, Event.read 0 0]))) ∧
    ((newEvents rt (LudiiGameWrapper.Construct E jenv path rt).2).filter Event.isRelease = [] ∧
      (∃ l, (LudiiGameWrapper.Construct E jenv path rt).2.localRefs = rt.localRefs ++ l) ∧
      (∀ utf r, Event.NewStringUTF utf r ∈
          newEvents rt (LudiiGameWrapper.Construct E jenv path rt).2 →
        r ∈ (LudiiGameWrapper.Construct E jenv path rt).2.localRefs)) ∧
    ((newEvents rt (LudiiGameWrapper.ConstructOptions E jenv path opts rt).2).filter
        Event.isRelease = [] ∧
      (∃ l, (LudiiGameWrapper.ConstructOptions E jenv path opts rt).2.localRefs =
        rt.localRefs ++ l) ∧
      (∀ utf r, Event.NewStringUTF utf r ∈
          newEvents rt (LudiiGameWrapper.ConstructOptions E jenv path opts rt).2 →
        r ∈ (LudiiGameWrapper.ConstructOptions E jenv path opts rt).2.localRefs) ∧
      (∀ len c i r, Event.NewObjectArray len c i r ∈
          newEvents rt (LudiiGameWrapper.ConstructOptions E jenv path opts rt).2 →
        r ≠ 0 → r ∈ (LudiiGameWrapper.ConstructOptions E jenv path opts rt).2.localRefs)) := by
  refine ⟨?_, ?_, ?_, ?_⟩
  · cases hs : self.stateTensorsShape with
    | some b =>
      rw [StateTensorsShape_populated E self rt b hs]
      exact ⟨rfl, fun h0 => by simp only [finalRuntime]; rw [h0]; rfl,
        Or.inl (newEvents_self _)⟩
    | none =>
      have hfin : finalRuntime (LudiiGameWrapper.StateTensorsShape E self rt) =
          fetchFinal (fetchShape E self.ludiiGameWrapperJavaObject
            self.stateTensorsShapeMethodID rt) := by
        rw [StateTensorsShape_eq, if_pos hs]
        cases fetchShape E self.ludiiGameWrapperJavaObject self.stateTensorsShapeMethodID rt <;>
          rfl
      obtain ⟨hb, hev⟩ := fetch_events E self.ludiiGameWrapperJavaObject
        self.stateTensorsShapeMethodID rt
      rw [hfin]
      refine ⟨hb, fun h0 => by rw [hb, h0]; rfl, Or.inr ?_⟩
      rcases hev with h | ⟨arr, rt', he, hev⟩
      · exact Or.inl h
      · refine Or.inr ⟨arr, ?_, hev⟩
        rw [StateTensorsShape_eq, if_pos hs, he]
        rfl
  · cases hs : self.moveTensorsShape with
    | some b =>
      rw [MoveTensorsShape_populated E self rt b hs]
      exact ⟨rfl, fun h0 => by simp only [finalRuntime]; rw [h0]; rfl,
        Or.inl (newEvents_self _)⟩
    | none =>
      have hfin : finalRuntime (LudiiGameWrapper.MoveTensorsShape E self rt) =
          fetchFinal (fetchShape E self.ludiiGameWrapperJavaObject
            self.moveTensorsShapeMethodID rt) := by
        rw [MoveTensorsShape_eq, if_pos hs]
        cases fetchShape E self.ludiiGameWrapperJavaObject self.moveTensorsShapeMethodID rt <;>
          rfl
      obtain ⟨hb, hev⟩ := fetch_events E self.ludiiGameWrapperJavaObject
        self.moveTensorsShapeMethodID rt
      rw [hfin]
      refine ⟨hb, fun h0 => by rw [hb, h0]; rfl, Or.inr ?_⟩
      rcases hev with h | ⟨arr, rt', he, hev⟩
      · exact Or.inl h
      · refine Or.inr ⟨arr, ?_, hev⟩
        rw [MoveTensorsShape_eq, if_pos hs, he]
        rfl
  · obtain ⟨_, _, _, f4, _⟩ := Construct_frame E jenv path rt
    refine ⟨?_, ⟨_, f4⟩, ?_⟩
    · rw [Construct_newEvents]
      simp [List.filter, Event.isRelease]
    · intro utf r hmem
      rw [Construct_newEvents] at hmem
      simp only [List.mem_cons, List.mem_singleton, List.not_mem_nil, or_false,
        reduceCtorEq, false_or, Event.NewStringUTF.injEq] at hmem
      rw [f4, hmem.2]
      simp
  · obtain ⟨_, _, _, f4, _⟩ := ConstructOptions_frame E jenv path opts rt
    obtain ⟨d, l, hd, hl, hrefs, htr⟩ := ConstructOptions_trace E jenv path opts rt
    obtain ⟨_, _, _, p4, _⟩ := optionsPrefix_spec E path opts rt
    have hev := newEvents_append rt _ _ htr
    refine ⟨?_, ⟨_, by rw [f4, hrefs, List.append_assoc]⟩, ?_, ?_⟩
    · rw [hev, List.filter_append, List.filter_append,
        filter_marshal_nil _ d (by intro e he; cases e <;> simp_all [Event.isMarshal,
          Event.isRelease]) hd]
      simp [List.filter, Event.isRelease]
    · intro utf r hmem
      rw [hev] at hmem
      rw [f4, hrefs]
      rcases List.mem_append.1 hmem with h12 | h3
      · rcases List.mem_append.1 h12 with h1 | h2
        · simp only [List.mem_cons, List.mem_singleton, List.not_mem_nil, or_false,
            reduceCtorEq, false_or, Event.NewStringUTF.injEq] at h1
          rw [h1.2]
          simp
        · have := hl utf r h2
          simp [this]
      · simp at h3
    · intro len c i r hmem hne
      rw [hev] at hmem
      rw [f4, hrefs]
      rcases List.mem_append.1 hmem with h12 | h3
      · rcases List.mem_append.1 h12 with h1 | h2
        · simp only [List.mem_cons, List.mem_singleton, List.not_mem_nil, or_false,
            reduceCtorEq, false_or, Event.NewObjectArray.injEq] at h1
          obtain ⟨_, _, _, hr⟩ := h1
          rw [p4] at hr
          by_cases hneg : toInt32 opts.length < 0
          · rw [if_pos hneg] at hr
            exact absurd hr hne
          · rw [if_neg hneg] at hr
            rw [if_neg hneg, hr]
            simp
        · have := hd _ h2
          simp [Event.isMarshal] at this
      · simp at h3

/-- Witness for C8 as amended: the first `StateTensorsShape` call on a wrapper
whose state-shape method returns the two-element array `[3, 8]` reads out of
bounds, and yet ends with no buffer acquired. -/
theorem foreign_memory_release_witness :
    (LudiiGameWrapper.Construct shortEngine 0 "game.lud" (Runtime.init ())).2.buffers = [] ∧
    (finalRuntime (LudiiGameWrapper.StateTensorsShape shortEngine
      (LudiiGameWrapper.Construct shortEngine 0 "game.lud" (Runtime.init ())).1
      (LudiiGameWrapper.Construct shortEngine 0 "game.lud"
        (Runtime.init ())).2)).buffers.length = 0 :=
  ⟨by decide,
   (foreign_memory_release shortEngine
      (LudiiGameWrapper.Construct shortEngine 0 "game.lud" (Runtime.init ())).1 0 "game.lud" []
      (LudiiGameWrapper.Construct shortEngine 0 "game.lud" (Runtime.init ())).2).1.2.1
     (by decide)⟩

/-! ## The options array -/

theorem toSizeT_natCast (k : Nat) (h : k < 18446744073709551616) : toSizeT (k : Int) = k := by
  unfold toSizeT
  omega

theorem deref_eq (heap : List JObj) (r : Nat) :
    deref heap r = if r = 0 then none else heap[r - 1]? := rfl

theorem deref_bounds (heap : List JObj) (r : Nat) (o : JObj)
    (h : deref heap r = some o) : 0 < r ∧ r ≤ heap.length := by
  rw [deref_eq] at h
  split at h
  · cases h
  · rename_i hr
    have := (List.getElem?_eq_some_iff.1 h).1
    omega

theorem deref_append (heap tail : List JObj) (r : Nat) (o : JObj)
    (h : deref heap r = some o) : deref (heap ++ tail) r = some o := by
  have hb := deref_bounds heap r o h
  rw [deref_eq] at h ⊢
  rw [if_neg (by omega)] at h ⊢
  rw [List.getElem?_append_left (by omega)]
  exact h

theorem deref_append_new (heap : List JObj) (o : JObj) :
    deref (heap ++ [o]) (heap.length + 1) = some o := by
  rw [deref_eq]
  simp

theorem deref_set_ne (heap : List JObj) (a r : Nat) (x : JObj) (ha : 0 < a)
    (hne : r ≠ a) : deref (heap.set (a - 1) x) r = deref heap r := by
  rw [deref_eq, deref_eq]
  split
  · rfl
  · rw [List.getElem?_set_ne (by omega)]

theorem deref_set_self (heap : List JObj) (a : Nat) (x : JObj) (ha : 0 < a)
    (hle : a ≤ heap.length) : deref (heap.set (a - 1) x) a = some x := by
  rw [deref_eq, if_neg (by omega), List.getElem?_set_self (by omega)]

/-- One iteration of the option loop on an options array with room at index
`k`: the new string is stored at index `k`, nothing else changes. -/
theorem loopBody_heap (arr : Nat) (k : Nat) (s : String) (rt : Runtime ε)
    (c : jclass) (elems : List jobject)
    (harr : deref rt.heap arr = some (JObj.objectArray c elems)) (hk : k < elems.length) :
    deref (SetObjectArrayElement arr (k : Int) (NewStringUTF s rt).1
        (NewStringUTF s rt).2).heap arr =
      some (JObj.objectArray c (elems.set k (rt.heap.length + 1))) ∧
    deref (SetObjectArrayElement arr (k : Int) (NewStringUTF s rt).1
        (NewStringUTF s rt).2).heap (rt.heap.length + 1) = some (JObj.string s) ∧
    (∀ (r : Nat) (o : JObj), r ≠ arr → deref rt.heap r = some o →
      deref (SetObjectArrayElement arr (k : Int) (NewStringUTF s rt).1
        (NewStringUTF s rt).2).heap r = some o) := by
  have hb := deref_bounds _ _ _ harr
  have h1 : deref (NewStringUTF s rt).2.heap arr = some (JObj.objectArray c elems) :=
    deref_append _ _ _ _ harr
  have hcond : (0 : Int) ≤ (k : Int) ∧ (k : Int).toNat < elems.length := by
    constructor
    · omega
    · simpa using hk
  have hheap : (SetObjectArrayElement arr (k : Int) (NewStringUTF s rt).1
      (NewStringUTF s rt).2).heap =
      (rt.heap ++ [JObj.string s]).set (arr - 1)
        (JObj.objectArray c (elems.set k (rt.heap.length + 1))) := by
    unfold SetObjectArrayElement
    rw [h1]
    simp only [if_pos hcond]
    simp [NewStringUTF]
  rw [hheap]
  refine ⟨?_, ?_, ?_⟩
  · exact deref_set_self _ _ _ hb.1 (by simp; omega)
  · rw [deref_set_ne _ _ _ _ hb.1 (by omega)]
    exact deref_append_new _ _
  · intro r o hne ho
    rw [deref_set_ne _ _ _ _ hb.1 hne]
    exact deref_append _ _ _ _ ho


theorem optionsLoop_step (arr : Nat) (opts : List String) (fuel k : Nat) (rt : Runtime ε)
    (hk : k < opts.length) (hlen : opts.length < 2147483648) :
    optionsLoop arr opts (fuel + 1) (k : Int) rt =
      optionsLoop arr opts fuel ((k + 1 : Nat) : Int)
        (SetObjectArrayElement arr (k : Int) (NewStringUTF (c_str opts[k]) rt).1
          (NewStringUTF (c_str opts[k]) rt).2) := by
  have hs : toSizeT (k : Int) = k := toSizeT_natCast k (by omega)
  have hc : toSizeT (k : Int) < opts.length := by rw [hs]; exact hk
  have hn : toInt32 ((k : Int) + 1) = ((k + 1 : Nat) : Int) := by
    have := toInt32_of_lt (k + 1) (by omega)
    push_cast at this ⊢
    exact this
  simp only [optionsLoop, hn, hs, dif_pos hk]

/-- The option loop, started at index `k` on an options array of the right
length with the fuel that remains, fills the indices from `k` on with
references to the converted option strings and leaves everything else. -/
theorem optionsLoop_contents (arr : Nat) (opts : List String) (c : jclass)
    (hlen : opts.length < 2147483648) :
    ∀ (fuel k : Nat) (rt : Runtime ε) (elems : List jobject),
      k + fuel = opts.length →
      deref rt.heap arr = some (JObj.objectArray c elems) →
      elems.length = opts.length →
      ∃ elems2,
        deref (optionsLoop arr opts fuel (k : Int) rt).heap arr =
          some (JObj.objectArray c elems2) ∧
        elems2.length = opts.length ∧
        (∀ j (hj : j < opts.length), k ≤ j → ∃ r, elems2[j]? = some r ∧
          deref (optionsLoop arr opts fuel (k : Int) rt).heap r =
            some (JObj.string (c_str opts[j]))) ∧
        (∀ j : Nat, j < k → elems2[j]? = elems[j]?) ∧
        (∀ (r : Nat) (o : JObj), r ≠ arr → deref rt.heap r = some o →
          deref (optionsLoop arr opts fuel (k : Int) rt).heap r = some o)
  | 0, k, rt, elems, hk, harr, hel => by
    refine ⟨elems, harr, hel, ?_, fun _ _ => rfl, fun _ _ _ h => h⟩
    intro j hj hkj
    omega
  | fuel + 1, k, rt, elems, hk, harr, hel => by
    have hklt : k < opts.length := by omega
    rw [optionsLoop_step arr opts fuel k rt hklt hlen]
    obtain ⟨b1, b2, b3⟩ := loopBody_heap arr k (c_str opts[k]) rt c elems harr
      (by rw [hel]; exact hklt)
    obtain ⟨elems2, i1, i2, i3, i4, i5⟩ :=
      optionsLoop_contents arr opts c hlen fuel (k + 1)
        (SetObjectArrayElement arr (k : Int) (NewStringUTF (c_str opts[k]) rt).1
          (NewStringUTF (c_str opts[k]) rt).2)
        (elems.set k (rt.heap.length + 1)) (by omega) b1 (by simp [hel])
    have hb := deref_bounds _ _ _ harr
    refine ⟨elems2, i1, i2, ?_, ?_, ?_⟩
    · intro j hj hkj
      by_cases hjk : j = k
      · subst hjk
        refine ⟨rt.heap.length + 1, ?_, ?_⟩
        · rw [i4 j (by omega), List.getElem?_set_self (by rw [hel]; exact hklt)]
        · exact i5 _ _ (by omega) b2
      · exact i3 j hj (by omega)
    · intro j hjk
      rw [i4 j (by omega), List.getElem?_set_ne (by omega)]
    · intro r o hne ho
      exact i5 r o hne (b3 r o hne ho)


/-- The heap in which the second constructor calls `NewObject`, for an options
sequence whose size fits a `jsize`: the path string and the options array,
filled in order with the converted options. -/
theorem optionsMarshalled_heap (E : Engine ε) (path : String) (opts : List String)
    (rt : Runtime ε) (hlen : opts.length < 2147483648) :
    (optionsPrefix E path opts rt).2.2.2.1 = rt.heap.length + 2 ∧
    deref (optionsMarshalled E path opts rt).heap (rt.heap.length + 1) =
      some (JObj.string (c_str path)) ∧
    ∃ elems,
      deref (optionsMarshalled E path opts rt).heap (rt.heap.length + 2) =
        some (JObj.objectArray javaLangString elems) ∧
      elems.length = opts.length ∧
      ∀ i (hi : i < opts.length), ∃ r, elems[i]? = some r ∧
        deref (optionsMarshalled E path opts rt).heap r = some (JObj.string (c_str opts[i])) := by
  obtain ⟨_, _, _, p4, _, p6, _⟩ := optionsPrefix_spec E path opts rt
  have hnn : ¬ toInt32 (opts.length : Int) < 0 := by
    rw [toInt32_of_lt _ hlen]
    omega
  rw [if_neg hnn] at p4 p6
  rw [toInt32_of_lt _ hlen, Int.toNat_ofNat] at p6
  have e : rt.heap ++
      [JObj.string (c_str path), JObj.objectArray javaLangString (List.replicate opts.length 0)]
      = (rt.heap ++ [JObj.string (c_str path)]) ++
        [JObj.objectArray javaLangString (List.replicate opts.length 0)] := by
    simp
  have hl : (rt.heap ++ [JObj.string (c_str path)]).length + 1 = rt.heap.length + 2 := by
    simp
  have hp : deref (optionsPrefix E path opts rt).2.2.2.2.heap (rt.heap.length + 1) =
      some (JObj.string (c_str path)) := by
    rw [p6, e]
    exact deref_append _ _ _ _ (deref_append_new _ _)
  have ha : deref (optionsPrefix E path opts rt).2.2.2.2.heap (rt.heap.length + 2) =
      some (JObj.objectArray javaLangString (List.replicate opts.length 0)) := by
    rw [p6, e, ← hl]
    exact deref_append_new _ _
  obtain ⟨elems, i1, i2, i3, _, i5⟩ :=
    optionsLoop_contents (rt.heap.length + 2) opts javaLangString hlen opts.length 0
      (optionsPrefix E path opts rt).2.2.2.2 (List.replicate opts.length 0) (by omega) ha
      (by simp)
  simp only [Nat.cast_zero] at i1 i3 i5
  have hM : optionsMarshalled E path opts rt =
      optionsLoop (rt.heap.length + 2) opts opts.length 0
        (optionsPrefix E path opts rt).2.2.2.2 := by
    unfold optionsMarshalled
    rw [p4]
  rw [hM]
  refine ⟨p4, i5 _ _ (by omega) hp, elems, i1, i2, ?_⟩
  intro i hi
  exact i3 i hi (by omega)

/-- The one `NewObject` call of the second constructor, with its arguments. -/
theorem ConstructOptions_newObject_args (E : Engine ε) (jenv : Nat) (path : String)
    (opts : List String) (rt : Runtime ε) :
    (newEvents rt (LudiiGameWrapper.ConstructOptions E jenv path opts rt).2).filter
        Event.isNewObject =
      [Event.NewObject
        (LudiiGameWrapper.ConstructOptions E jenv path opts rt).1.ludiiGameWrapperClass
        (optionsPrefix E path opts rt).2.1
        [rt.heap.length + 1, (optionsPrefix E path opts rt).2.2.2.1]
        (optionsMarshalled E path opts rt).heap
        (LudiiGameWrapper.ConstructOptions E jenv path opts
          rt).1.ludiiGameWrapperJavaObject] := by
  obtain ⟨d, hd, hev⟩ := ConstructOptions_newEvents E jenv path opts rt
  rw [hev, List.filter_append, List.filter_append,
    filter_marshal_nil _ d (by intro e he; cases e <;> simp_all [Event.isMarshal,
      Event.isNewObject]) hd]
  simp only [List.filter, Event.isNewObject, List.nil_append, List.append_nil]

theorem toInt32_wrap : toInt32 (2147483648 : Int) = -2147483648 := by
  unfold toInt32
  split <;> omega

/-- A string without NUL character is its own C string. -/
theorem c_str_of_no_nul (s : String) (h : Char.ofNat 0 ∉ s.data) : c_str s = s := by
  unfold c_str
  have ht : s.data.takeWhile (fun c => decide (c ≠ Char.ofNat 0)) = s.data := by
    rw [List.takeWhile_eq_self_iff]
    intro c hc
    have hne : c ≠ Char.ofNat 0 := fun hce => h (hce ▸ hc)
    simp [hne]
  rw [ht]

/-- Constructing over the stub engine with 2^31 options: the requested array
length wraps to `-2^31`, the creation returns null, and the constructor call
has the null reference as its second argument. -/
theorem stub_overflow (n : Nat) (hn : n = 2147483648) :
    toInt32 ((List.replicate n "").length : Int) = -2147483648 ∧
    (optionsPrefix stubEngine "game.lud" (List.replicate n "")
      (Runtime.init ())).2.2.2.1 = 0 ∧
    (newEvents (Runtime.init ())
      (LudiiGameWrapper.ConstructOptions stubEngine 0 "game.lud"
        (List.replicate n "") (Runtime.init ())).2).filter Event.isNewObject =
      [Event.NewObject 7 2 [1, 0]
        (optionsMarshalled stubEngine "game.lud" (List.replicate n "")
          (Runtime.init ())).heap
        (LudiiGameWrapper.ConstructOptions stubEngine 0 "game.lud"
          (List.replicate n "") (Runtime.init ())).1.ludiiGameWrapperJavaObject] := by
  obtain ⟨p1, p2, _, p4, _⟩ := optionsPrefix_spec stubEngine "game.lud"
    (List.replicate n "") (Runtime.init ())
  have hwrap : toInt32 ((List.replicate n "").length : Int) = -2147483648 := by
    rw [List.length_replicate, hn]
    exact toInt32_wrap
  have hneg : toInt32 ((List.replicate n "").length : Int) < 0 := by
    rw [hwrap]
    omega
  rw [if_pos hneg] at p4
  have hcls : (LudiiGameWrapper.ConstructOptions stubEngine 0 "game.lud"
      (List.replicate n "") (Runtime.init ())).1.ludiiGameWrapperClass = 7 := by
    rw [ConstructOptions_eq]
    simp only []
    rw [p1]
    decide
  have hctor : (optionsPrefix stubEngine "game.lud" (List.replicate n "")
      (Runtime.init ())).2.1 = 2 := by
    rw [p2]
    decide
  have hfilter := ConstructOptions_newObject_args stubEngine 0 "game.lud"
    (List.replicate n "") (Runtime.init ())
  have h0 : (Runtime.init ()).heap.length + 1 = 1 := rfl
  rw [hcls, hctor, p4, h0] at hfilter
  exact ⟨hwrap, p4, hfilter⟩

/-- Counterexample to C6 as stated.  For an options sequence of 2^31 elements
the size does not fit a `jsize`: the array creation is asked for a negative
length and returns null, and the two-argument constructor is handed that null
reference, not an array of 2^31 strings.  And an option with an embedded NUL
character does not arrive unaltered: for the one option `a`, NUL, `b` the
array element is the foreign string `a`. -/
theorem options_passed_in_order_counterexample :
    ((∃ heap obj,
      (newEvents (Runtime.init ())
        (LudiiGameWrapper.ConstructOptions stubEngine 0 "game.lud"
          (List.replicate 2147483648 "") (Runtime.init ())).2).filter Event.isNewObject =
        [Event.NewObject 7 2 [1, 0] heap obj]) ∧
     ¬ ∃ c m p a heap obj elems,
      (newEvents (Runtime.init ())
        (LudiiGameWrapper.ConstructOptions stubEngine 0 "game.lud"
          (List.replicate 2147483648 "") (Runtime.init ())).2).filter Event.isNewObject =
        [Event.NewObject c m [p, a] heap obj] ∧
      deref heap a = some (JObj.objectArray javaLangString elems) ∧
      elems.length = (List.replicate 2147483648 "").length) ∧
    ((newEvents (Runtime.init ())
        (LudiiGameWrapper.ConstructOptions stubEngine 0 "game.lud" [nulOption]
          (Runtime.init ())).2).filter Event.isNewObject =
      [Event.NewObject 7 2 [1, 2]
        [JObj.string "game.lud", JObj.objectArray javaLangString [3], JObj.string "a"] 4] ∧
     nulOption ≠ "a") := by
  obtain ⟨_, _, hfilter⟩ := stub_overflow 2147483648 rfl
  refine ⟨⟨⟨_, _, hfilter⟩, ?_⟩, by decide, by decide⟩
  rintro ⟨c, m, p, a, heap, obj, elems, h1, h2, _⟩
  rw [hfilter] at h1
  injection h1 with h1 _
  injection h1 with _ _ hargs _ _
  injection hargs with _ hargs
  injection hargs with ha _
  rw [← ha] at h2
  cases h2

/-- C6, amended: for every options sequence of fewer than 2^31 elements, the
foreign array handed to the two-argument constructor has exactly as many
elements as there are options, and its element `i` refers to the foreign
string made from the characters of option `i` up to its first NUL character:
from option `i` itself, verbatim, when it contains no NUL character (none
dropped, duplicated or reordered, and none altered but by that cut).  The
first constructor argument refers to the foreign string made in the same way
from the game definition path. -/
theorem options_passed_in_order (E : Engine ε) (jenv : Nat) (path : String)
    (opts : List String) (rt : Runtime ε) (hlen : opts.length < 2147483648) :
    ∃ ctor p a heap elems,
      Event.GetMethodID
        (LudiiGameWrapper.ConstructOptions E jenv path opts rt).1.ludiiGameWrapperClass
        "<init>" "(Ljava/lang/String;[Ljava/lang/String;)V" ctor ∈
        newEvents rt (LudiiGameWrapper.ConstructOptions E jenv path opts rt).2 ∧
      (newEvents rt (LudiiGameWrapper.ConstructOptions E jenv path opts rt).2).filter
          Event.isNewObject =
        [Event.NewObject
          (LudiiGameWrapper.ConstructOptions E jenv path opts rt).1.ludiiGameWrapperClass
          ctor [p, a] heap
          (LudiiGameWrapper.ConstructOptions E jenv path opts
            rt).1.ludiiGameWrapperJavaObject] ∧
      deref heap p = some (JObj.string (c_str path)) ∧
      (Char.ofNat 0 ∉ path.data → deref heap p = some (JObj.string path)) ∧
      deref heap a = some (JObj.objectArray javaLangString elems) ∧
      elems.length = opts.length ∧
      ∀ i (hi : i < opts.length), ∃ r, elems[i]? = some r ∧
        deref heap r = some (JObj.string (c_str opts[i])) ∧
        (Char.ofNat 0 ∉ opts[i].data → deref heap r = some (JObj.string opts[i])) := by
  obtain ⟨d, hd, hev⟩ := ConstructOptions_newEvents E jenv path opts rt
  obtain ⟨ha, hp, elems, h1, h2, h3⟩ := optionsMarshalled_heap E path opts rt hlen
  refine ⟨(optionsPrefix E path opts rt).2.1, rt.heap.length + 1, rt.heap.length + 2,
    (optionsMarshalled E path opts rt).heap, elems, ?_, ?_, hp, ?_, h1, h2, ?_⟩
  · rw [hev]
    simp
  · rw [ConstructOptions_newObject_args, ha]
  · intro hnul
    rw [hp, c_str_of_no_nul path hnul]
  · intro i hi
    obtain ⟨r, hr1, hr2⟩ := h3 i hi
    refine ⟨r, hr1, hr2, ?_⟩
    intro hnul
    rw [hr2, c_str_of_no_nul _ hnul]

/-- Witness for C6 as amended: two options over the stub engine. -/
theorem options_passed_in_order_witness :
    ["size=5", "rules=fast"].length < 2147483648 ∧
    ∃ ctor p a heap elems,
      Event.GetMethodID
        (LudiiGameWrapper.ConstructOptions stubEngine 0 "game.lud" ["size=5", "rules=fast"]
          (Runtime.init ())).1.ludiiGameWrapperClass
        "<init>" "(Ljava/lang/String;[Ljava/lang/String;)V" ctor ∈
        newEvents (Runtime.init ())
          (LudiiGameWrapper.ConstructOptions stubEngine 0 "game.lud"
            ["size=5", "rules=fast"] (Runtime.init ())).2 ∧
      (newEvents (Runtime.init ())
          (LudiiGameWrapper.ConstructOptions stubEngine 0 "game.lud"
            ["size=5", "rules=fast"] (Runtime.init ())).2).filter Event.isNewObject =
        [Event.NewObject
          (LudiiGameWrapper.ConstructOptions stubEngine 0 "game.lud"
            ["size=5", "rules=fast"] (Runtime.init ())).1.ludiiGameWrapperClass
          ctor [p, a] heap
          (LudiiGameWrapper.ConstructOptions stubEngine 0 "game.lud"
            ["size=5", "rules=fast"] (Runtime.init ())).1.ludiiGameWrapperJavaObject] ∧
      deref heap p = some (JObj.string (c_str "game.lud")) ∧
      (Char.ofNat 0 ∉ "game.lud".data → deref heap p = some (JObj.string "game.lud")) ∧
      deref heap a = some (JObj.objectArray javaLangString elems) ∧
      elems.length = ["size=5", "rules=fast"].length ∧
      ∀ i (hi : i < ["size=5", "rules=fast"].length), ∃ r, elems[i]? = some r ∧
        deref heap r = some (JObj.string (c_str (["size=5", "rules=fast"][i]))) ∧
        (Char.ofNat 0 ∉ (["size=5", "rules=fast"][i]).data →
          deref heap r = some (JObj.string (["size=5", "rules=fast"][i]))) :=
  ⟨by decide,
   options_passed_in_order stubEngine 0 "game.lud" ["size=5", "rules=fast"] (Runtime.init ())
     (by decide)⟩

/-! ## The fuel of the option loop -/

theorem toSizeT_min : toSizeT (-2147483648 : Int) = 18446744071562067968 := by
  unfold toSizeT
  omega

/-- With the index at `toInt32 k`, `k` iterations done, the loop needs at most
`min (length, 2^31) - k` further iterations: any larger fuel gives the same
runtime. -/
theorem optionsLoop_fuel_aux (arr : jobjectArray) (opts : List String)
    (hsize : opts.length ≤ 18446744071562067968) :
    ∀ (j k fuel : Nat) (rt : Runtime ε),
      k + j = min opts.length 2147483648 → j ≤ fuel →
      optionsLoop arr opts fuel (toInt32 (k : Int)) rt =
        optionsLoop arr opts j (toInt32 (k : Int)) rt
  | 0, k, fuel, rt, hk, _ => by
    have hstop : ¬ toSizeT (toInt32 (k : Int)) < opts.length := by
      by_cases h31 : opts.length < 2147483648
      · have hkn : k = opts.length := by omega
        rw [toInt32_of_lt k (by omega), toSizeT_natCast k (by omega)]
        omega
      · have hkn : k = 2147483648 := by omega
        subst hkn
        have h2 : ((2147483648 : Nat) : Int) = (2147483648 : Int) := by norm_cast
        rw [h2, toInt32_wrap, toSizeT_min]
        omega
    cases fuel with
    | zero => rfl
    | succ f => simp only [optionsLoop, dif_neg hstop]
  | j + 1, k, fuel, rt, hk, hf => by
    have hk31 : k < 2147483648 := by omega
    have hkn : k < opts.length := by omega
    have hi : toInt32 (k : Int) = (k : Int) := toInt32_of_lt k hk31
    have hgo : toSizeT (toInt32 (k : Int)) < opts.length := by
      rw [hi, toSizeT_natCast k (by omega)]
      exact hkn
    have hnext : toInt32 (k : Int) + 1 = ((k + 1 : Nat) : Int) := by
      rw [hi]
      push_cast
      rfl
    cases fuel with
    | zero => omega
    | succ f =>
      simp only [optionsLoop, dif_pos hgo, hnext]
      exact optionsLoop_fuel_aux arr opts hsize j (k + 1) f _ (by omega) (by omega)

/-- The fuel given by the second constructor, the number of options, is enough:
for every options vector (fewer than 2^64 - 2^31 elements) more fuel changes
nothing, so the loop always ends by its own exit test. -/
theorem optionsLoop_fuel (arr : jobjectArray) (opts : List String) (extra : Nat)
    (rt : Runtime ε) (hsize : opts.length ≤ 18446744071562067968) :
    optionsLoop arr opts (opts.length + extra) 0 rt =
      optionsLoop arr opts opts.length 0 rt := by
  have h0 : toInt32 ((0 : Nat) : Int) = 0 := by
    rw [toInt32_of_lt 0 (by omega)]
    rfl
  have a := optionsLoop_fuel_aux arr opts hsize (min opts.length 2147483648) 0
    (opts.length + extra) rt (by omega) (by omega)
  have b := optionsLoop_fuel_aux arr opts hsize (min opts.length 2147483648) 0
    opts.length rt (by omega) (by omega)
  rw [h0] at a b
  rw [a, b]

end Ludii
